import Mathlib

/-!
# BootsNCat: a two-voice percussion applet

A shallow embedding of `software/src/applets/BootsNCat.h`, followed by the bias
selector `software/src/VBiasManager.h` (namespace `VBias`) and the chord table
`software/o_c_REV/hem_arp_chord.h` (namespace `ArpChords`).

* C++ `int` / `int32_t` values are mathematical integers; every place where the
  source stores the result of an arithmetic expression into a fixed-width
  variable is modelled by an explicit wrap (`wrapInt32`, `wrapUInt32`, ...),
  i.e. two's-complement arithmetic as on the target ARM core.
* `uint64_t` preset words are natural numbers.
* The oscillator engine (`VectorOscillator`), the host framework queries
  (`Changed`, `In`, `Clock`, `EditMode`, `MoveCursor`) and the random source are
  not part of the applet. Their replies during one call are inputs of the
  model, so every theorem holds for whatever those collaborators answer.
-/

namespace BootsNCat

/-! ## Machine integers -/

/-- The value of a 32-bit two's-complement variable (`int`, `int32_t`) after storing `x`. -/
def wrapInt32 (x : Int) : Int := (x + 2147483648) % 4294967296 - 2147483648

/-- The value of a `uint32_t` variable after storing `x`. -/
def wrapUInt32 (x : Int) : Int := x % 4294967296

/-- The value of an `int8_t` variable after storing `x`. -/
def wrapInt8 (x : Int) : Int := (x + 128) % 256 - 128

/-- The value of a `byte` (`uint8_t`) variable after storing `x`. -/
def wrapUInt8 (x : Int) : Int := x % 256

/-- The value of a `uint64_t` variable after storing `x`. -/
def toUInt64 (x : Int) : Nat := (x % 18446744073709551616).toNat

/-- Membership in the range of `int32_t`. -/
def IsInt32 (x : Int) : Prop := -2147483648 ≤ x ∧ x < 2147483648

instance (x : Int) : Decidable (IsInt32 x) := by
  unfold IsInt32; exact inferInstance

/-! ## Helpers of the host framework and the Arduino core -/

/-- The Arduino macro `constrain(amt, low, high)`:
`((amt)<(low)?(low):((amt)>(high)?(high):(amt)))`. -/
def constrain (amt low high : Int) : Int :=
  if amt < low then low else if amt > high then high else amt

/-- Modelled from the spec: the host helper `Proportion(numerator, denominator, max_value)`
is declared outside the files at hand; the spec (4.1) gives it as
`numerator * outOf / denominator` with truncating integer division and an
intermediate wide enough not to overflow. -/
def Proportion (numerator denominator max_value : Int) : Int :=
  Int.tdiv (numerator * max_value) denominator

/-- A bit field of a preset word: `PackLocation {location, size}`. -/
structure PackLocation where
  location : Nat
  size : Nat
deriving DecidableEq

/-- Modelled from the spec: the host helper `Pack(data, p, value)` is declared outside
the files at hand; the spec (4.6, 6) has it place the field value at bit offset
`p.location` of the 64-bit word, least significant bit first, on top of what
the word already holds. -/
def Pack (data : Nat) (p : PackLocation) (value : Nat) : Nat :=
  data ||| ((value <<< p.location) % 18446744073709551616)

/-- Modelled from the spec: the host helper `Unpack(data, p)` is declared outside the
files at hand; the spec (4.6) has it extract the `p.size`-bit field at bit
offset `p.location` independently of the other fields. -/
def Unpack (data : Nat) (p : PackLocation) : Int :=
  (((data >>> p.location) &&& (2 ^ p.size - 1) : Nat) : Int)

/-! ## Data model -/

/-- A C array of two elements, indexed by the channel number. -/
structure Arr2 (α : Type) where
  e0 : α
  e1 : α
deriving DecidableEq

/-- Read `a[ch]`. -/
def Arr2.get {α : Type} (a : Arr2 α) (ch : Nat) : α :=
  if ch = 0 then a.e0 else a.e1

/-- Write `a[ch] = v`. -/
def Arr2.set {α : Type} (a : Arr2 α) (ch : Nat) (v : α) : Arr2 α :=
  if ch = 0 then { a with e0 := v } else { a with e1 := v }

/-- Modelled from the spec: the class `VectorOscillator` (`HSVectorOscillator.h`) is
outside the files at hand; the spec treats the oscillator engine as an external
collaborator that the applet configures (frequency, scale, offset), retriggers
and reads. The model records the configuration the applet has given and the
number of retriggers. The phase belongs to the engine: what `GetEOC()` and
`Next()` answer is an input of `Controller`. -/
structure VectorOscillator where
  /-- Argument of the last `SetFrequency`. -/
  frequency : Int
  /-- Argument of the last `SetScale`. -/
  scale : Int
  /-- Argument of the last `Offset`. -/
  offset : Int
  /-- Argument of the last `Cycle`. -/
  cycle : Bool
  /-- Number of `Start()` calls (retriggers) so far. -/
  starts : Nat
deriving DecidableEq

/-- The method `VectorOscillator::SetFrequency`. -/
def VectorOscillator.SetFrequency (o : VectorOscillator) (f : Int) : VectorOscillator :=
  { o with frequency := f }

/-- The method `VectorOscillator::SetScale`. -/
def VectorOscillator.SetScale (o : VectorOscillator) (v : Int) : VectorOscillator :=
  { o with scale := v }

/-- The method `VectorOscillator::Offset`. -/
def VectorOscillator.Offset (o : VectorOscillator) (v : Int) : VectorOscillator :=
  { o with offset := v }

/-- The method `VectorOscillator::Cycle`. -/
def VectorOscillator.Cycle (o : VectorOscillator) (b : Bool) : VectorOscillator :=
  { o with cycle := b }

/-- The method `VectorOscillator::Start`. -/
def VectorOscillator.Start (o : VectorOscillator) : VectorOscillator :=
  { o with starts := o.starts + 1 }

/-- The waveforms the applet asks the waveform manager for. -/
inductive Waveform where
  | Triangle
  | Sawtooth
deriving DecidableEq

/-- What the applet takes from its host and is not defined in `BootsNCat.h`. -/
structure Host where
  /-- The constant `HEMISPHERE_MAX_CV`. -/
  HEMISPHERE_MAX_CV : Int
  /-- The constant `HEMISPHERE_3V_CV`. -/
  HEMISPHERE_3V_CV : Int
  /-- New cursor position computed by `MoveCursor(cursor, direction, max)`. -/
  MoveCursor : Int → Int → Int → Int
  /-- Oscillator returned by `WaveformManager::VectorOscillatorFromWaveform`. -/
  VectorOscillatorFromWaveform : Waveform → VectorOscillator

/-- The constant `BNC_MAX_PARAM`. -/
def BNC_MAX_PARAM : Int := 63

/-- The private members of the applet. -/
structure State where
  cursor : Int
  bass : VectorOscillator
  eg : Arr2 VectorOscillator
  noise_tone_countdown : Int
  /-- A `uint32_t`: always stored through `wrapUInt32`. -/
  noise : Int
  levels : Arr2 Int
  tone : Arr2 Int
  decay : Arr2 Int
  /-- An `int8_t`. -/
  blend : Int
deriving DecidableEq

/-- The method `SetBDFreq`. -/
def SetBDFreq (s : State) : State :=
  { s with bass := s.bass.SetFrequency (Proportion (s.tone.get 0) BNC_MAX_PARAM 3000 + 3000) }

/-- The method `SetEGFreq(ch)`. -/
def SetEGFreq (s : State) (ch : Nat) : State :=
  let f := 1000 - Proportion (s.decay.get ch) BNC_MAX_PARAM 900
  { s with eg := s.eg.set ch ((s.eg.get ch).SetFrequency f) }

/-- One pass of the `ForEachChannel` loop of `Start`. -/
def StartChannel (h : Host) (s : State) (ch : Nat) : State :=
  let s := { s with levels := s.levels.set ch 0 }
  let s := { s with eg := s.eg.set ch (h.VectorOscillatorFromWaveform Waveform.Sawtooth) }
  let s := { s with eg := s.eg.set ch ((s.eg.get ch).SetFrequency (s.decay.get ch)) }
  let fs := if ch ≠ 0 then h.HEMISPHERE_3V_CV else h.HEMISPHERE_MAX_CV
  let s := { s with eg := s.eg.set ch ((s.eg.get ch).SetScale fs) }
  let s := { s with eg := s.eg.set ch ((s.eg.get ch).Offset fs) }
  let s := { s with eg := s.eg.set ch ((s.eg.get ch).Cycle false) }
  SetEGFreq s ch

/-- The method `Start`. Members it does not assign (`cursor`, `noise`) keep the
value they had. -/
def Start (h : Host) (s : State) : State :=
  let s := { s with tone := s.tone.set 0 32 }
  let s := { s with decay := s.decay.set 0 32 }
  let s := { s with tone := s.tone.set 1 55 }
  let s := { s with decay := s.decay.set 1 16 }
  let s := { s with noise_tone_countdown := 1 }
  let s := { s with blend := 0 }
  let s := { s with bass := h.VectorOscillatorFromWaveform Waveform.Triangle }
  let s := SetBDFreq s
  let s := { s with bass := s.bass.SetScale ((12 * 2 ^ 7) * 3) }
  [0, 1].foldl (StartChannel h) s

/-- What the collaborators answer during one `Controller` call. -/
structure TickInput where
  /-- Reply of `Changed(ch)`. -/
  Changed : Nat → Bool
  /-- Reply of `In(ch)`. -/
  In : Nat → Int
  /-- Reply of `Clock(ch, 1)`. -/
  Clock : Nat → Bool
  /-- Reply of `eg[ch].GetEOC()`. -/
  GetEOC : Nat → Bool
  /-- Reply of `eg[ch].Next()`, should it be called. -/
  egNext : Nat → Int
  /-- Reply of `bass.Next()`, should it be called. -/
  bassNext : Int
  /-- Reply of `random(0, (12 << 7) * 6)`, should it be called. -/
  random : Int

/-- What one `Controller` call leaves behind. -/
structure Tick where
  state : State
  /-- The value passed to `Out(0, signal)`. -/
  out0 : Int
  /-- The value passed to `Out(1, signal)`. -/
  out1 : Int
  /-- Number of calls to `random` made. -/
  random_calls : Nat
deriving DecidableEq

/-- One pass of the first `ForEachChannel` loop of `Controller`. -/
def ControllerChannel (h : Host) (i : TickInput) (s : State) (ch : Nat) : State :=
  let fs := if ch ≠ 0 then h.HEMISPHERE_3V_CV else h.HEMISPHERE_MAX_CV
  let s := if i.Changed ch then
      { s with eg := s.eg.set ch ((s.eg.get ch).SetScale (fs - i.In ch)) }
    else s
  if i.Clock ch then { s with eg := s.eg.set ch (s.eg.get ch).Start } else s

/-- The signal `Controller` passes to `Out(0, ...)` ("Bass Drum Output"), from the
blend setting and the two pre-mix signals. -/
def BassDrumOutput (blend bd_signal sd_signal : Int) : Int :=
  let signal := wrapInt32
    (Proportion ((BNC_MAX_PARAM - blend) + BNC_MAX_PARAM) (BNC_MAX_PARAM * 2) bd_signal)
  wrapInt32 (signal + Proportion blend (BNC_MAX_PARAM * 2) sd_signal)

/-- The signal `Controller` passes to `Out(1, ...)` ("Snare Drum Output"). -/
def SnareDrumOutput (blend bd_signal sd_signal : Int) : Int :=
  let signal := wrapInt32
    (Proportion ((BNC_MAX_PARAM - blend) + BNC_MAX_PARAM) (BNC_MAX_PARAM * 2) sd_signal)
  wrapInt32 (signal + Proportion blend (BNC_MAX_PARAM * 2) bd_signal)

/-- The state and the two pre-mix signals `bd_signal`, `sd_signal` (with the
number of `random` calls) that `Controller` has computed when it reaches the
output stage. -/
def PreMix (h : Host) (s : State) (i : TickInput) : State × Int × Int × Nat :=
  let s := [0, 1].foldl (ControllerChannel h i) s
  -- Calculate bass drum signal
  let (s, bd_signal) :=
    if !(i.GetEOC 0) then
      let s := { s with levels := s.levels.set 0 (i.egNext 0) }
      (s, wrapInt32 (Proportion (s.levels.get 0) h.HEMISPHERE_MAX_CV i.bassNext))
    else (s, (0 : Int))
  -- Calculate snare drum signal
  let s := { s with noise_tone_countdown := wrapInt32 (s.noise_tone_countdown - 1) }
  let (s, calls) :=
    if s.noise_tone_countdown = 0 then
      let s := { s with noise := wrapUInt32 (i.random - (12 * 2 ^ 7) * 3) }
      ({ s with noise_tone_countdown := wrapInt32 (BNC_MAX_PARAM - s.tone.get 1 + 1) }, 1)
    else (s, 0)
  let (s, sd_signal) :=
    if !(i.GetEOC 1) then
      let s := { s with levels := s.levels.set 1 (i.egNext 1) }
      (s, wrapInt32 (Proportion (s.levels.get 1) h.HEMISPHERE_MAX_CV (wrapInt32 s.noise)))
    else (s, (0 : Int))
  (s, bd_signal, sd_signal, calls)

/-- The method `Controller`. -/
def Controller (h : Host) (s : State) (i : TickInput) : Tick :=
  let (s, bd_signal, sd_signal, calls) := PreMix h s i
  { state := s
    out0 := BassDrumOutput s.blend bd_signal sd_signal
    out1 := SnareDrumOutput s.blend bd_signal sd_signal
    random_calls := calls }

/-- The method `OnEncoderMove(direction)`; `editMode` is the reply of `EditMode()`. -/
def OnEncoderMove (h : Host) (editMode : Bool) (s : State) (direction : Int) : State :=
  if !editMode then
    { s with cursor := h.MoveCursor s.cursor direction 4 }
  else if s.cursor = 4 then
    { s with blend := wrapInt8 (constrain (wrapInt32 (s.blend + direction)) 0 BNC_MAX_PARAM) }
  else
    let ch : Int := if s.cursor > 1 then 1 else 0
    let c : Int := wrapUInt8 s.cursor
    let c : Int := if ch ≠ 0 then wrapUInt8 (c - 2) else c
    let s :=
      if c = 0 then
        let v := constrain (wrapInt32 (s.tone.get ch.toNat + direction)) 0 BNC_MAX_PARAM
        let s := { s with tone := s.tone.set ch.toNat v }
        if ch = 0 then SetBDFreq s else s
      else s
    if c = 1 then
      let v := constrain (wrapInt32 (s.decay.get ch.toNat + direction)) 0 BNC_MAX_PARAM
      let s := { s with decay := s.decay.set ch.toNat v }
      SetEGFreq s ch.toNat
    else s

/-- The method `OnDataRequest`. -/
def OnDataRequest (s : State) : Nat :=
  let data : Nat := 0
  let data := Pack data ⟨0, 6⟩ (toUInt64 (s.tone.get 0))
  let data := Pack data ⟨6, 6⟩ (toUInt64 (s.decay.get 0))
  let data := Pack data ⟨12, 6⟩ (toUInt64 (s.tone.get 1))
  let data := Pack data ⟨18, 6⟩ (toUInt64 (s.decay.get 1))
  let data := Pack data ⟨24, 6⟩ (toUInt64 s.blend)
  data

/-- The method `OnDataReceive(data)`. -/
def OnDataReceive (s : State) (data : Nat) : State :=
  let s := { s with tone := s.tone.set 0 (Unpack data ⟨0, 6⟩) }
  let s := { s with decay := s.decay.set 0 (Unpack data ⟨6, 6⟩) }
  let s := { s with tone := s.tone.set 1 (Unpack data ⟨12, 6⟩) }
  let s := { s with decay := s.decay.set 1 (Unpack data ⟨18, 6⟩) }
  { s with blend := wrapInt8 (Unpack data ⟨24, 6⟩) }

/-! ## Runs -/

/-- The calls the host makes on a started applet. -/
inductive Event where
  /-- `OnEncoderMove(direction)` while `EditMode()` answers `editMode`. -/
  | encoder (editMode : Bool) (direction : Int)
  /-- `OnDataReceive(data)`. -/
  | dataReceive (data : Nat)
  /-- `Controller()` with the collaborators answering `i`. -/
  | controller (i : TickInput)

/-- The state after one call. -/
def step (h : Host) (s : State) : Event → State
  | Event.encoder editMode direction => OnEncoderMove h editMode s direction
  | Event.dataReceive data => OnDataReceive s data
  | Event.controller i => (Controller h s i).state

/-- The state after a sequence of calls. -/
def run (h : Host) (s : State) (es : List Event) : State :=
  es.foldl (step h) s

/-- The five editable parameters all lie in `[0, 63]`. -/
def ParamsInRange (s : State) : Prop :=
  (0 ≤ s.tone.get 0 ∧ s.tone.get 0 ≤ 63) ∧ (0 ≤ s.decay.get 0 ∧ s.decay.get 0 ≤ 63) ∧
  (0 ≤ s.tone.get 1 ∧ s.tone.get 1 ≤ 63) ∧ (0 ≤ s.decay.get 1 ∧ s.decay.get 1 ≤ 63) ∧
  (0 ≤ s.blend ∧ s.blend ≤ 63)

instance (s : State) : Decidable (ParamsInRange s) := by
  unfold ParamsInRange; exact inferInstance

/-- The parameter the cursor selects in the edit interface:
0 is `tone[0]`, 1 is `decay[0]`, 2 is `tone[1]`, 3 is `decay[1]`, 4 is `blend`. -/
def selectedParam (s : State) : Int :=
  if s.cursor = 0 then s.tone.get 0
  else if s.cursor = 1 then s.decay.get 0
  else if s.cursor = 2 then s.tone.get 1
  else if s.cursor = 3 then s.decay.get 1
  else s.blend

/-- A host configuration used to evaluate the model on concrete inputs: 6 V full
scale, 3 V snare scale, and a cursor that stops at either end of the list. -/
def sampleHost : Host :=
  { HEMISPHERE_MAX_CV := 9216
    HEMISPHERE_3V_CV := 4608
    MoveCursor := fun cursor direction max => constrain (cursor + direction) 0 max
    VectorOscillatorFromWaveform := fun _ =>
      { frequency := 0, scale := 0, offset := 0, cycle := true, starts := 0 } }

/-- A state with every member zero, as before `Start`. -/
def zeroState : State :=
  { cursor := 0
    bass := { frequency := 0, scale := 0, offset := 0, cycle := true, starts := 0 }
    eg := ⟨{ frequency := 0, scale := 0, offset := 0, cycle := true, starts := 0 },
           { frequency := 0, scale := 0, offset := 0, cycle := true, starts := 0 }⟩
    noise_tone_countdown := 0
    noise := 0
    levels := ⟨0, 0⟩
    tone := ⟨0, 0⟩
    decay := ⟨0, 0⟩
    blend := 0 }

/-- A state with the cursor on `tone[1]` and the parameters at 63, 0, 1, 62, 63. -/
def sampleState : State :=
  { zeroState with cursor := 2, tone := ⟨63, 1⟩, decay := ⟨0, 62⟩, blend := 63 }

/-- The number of `Controller` calls in a sequence of calls. -/
def ticks : List Event → Nat
  | [] => 0
  | Event.controller _ :: es => ticks es + 1
  | _ :: es => ticks es

/-- Replies of the collaborators on a tick with both envelopes running at full
level: no trigger, no CV change, `bass.Next()` = 1000 and a random draw of 9215. -/
def sampleInput : TickInput :=
  { Changed := fun _ => false
    In := fun _ => 0
    Clock := fun _ => false
    GetEOC := fun _ => false
    egNext := fun _ => 9216
    bassNext := 1000
    random := 9215 }

/-- Eight `Controller` ticks, with an edit of a parameter after the third. -/
def sampleHoldRun : List Event :=
  [Event.controller sampleInput, Event.controller sampleInput, Event.controller sampleInput,
   Event.encoder true 3, Event.controller sampleInput, Event.controller sampleInput,
   Event.controller sampleInput, Event.controller sampleInput, Event.controller sampleInput]

end BootsNCat

/-! # VBiasManager: the output-range (bias) selector

A shallow embedding of `software/src/VBiasManager.h`. The tick counter
`OC::CORE::ticks`, the calibration word and the DAC are globals of the firmware:
the counter is an argument of each call, the calibration values are parameters,
and the globals `SetState` writes are members of the model state. -/

namespace VBias

/-- The constant `BIAS_EDITOR_TIMEOUT`. -/
def BIAS_EDITOR_TIMEOUT : Int := 20000

/-- The enumerator `VState::BI`. -/
def BI : Int := 0

/-- The enumerator `VState::ASYM`. -/
def ASYM : Int := 1

/-- The enumerator `VState::UNI`. -/
def UNI : Int := 2

/-- The member `OCTAVE_BIAS`. -/
def OCTAVE_BIAS : List Int := [5, 3, 0]

/-- The member `OCTAVE_MAX`. -/
def OCTAVE_MAX : List Int := [5, 7, 10]

/-- The calibration values `SetState` reads: `OC::calibration_data.v_bias` (a 32-bit
word) and `OC::DAC::VBiasUnipolar`. -/
structure Calibration where
  v_bias : Nat
  VBiasUnipolar : Int
deriving DecidableEq

/-- The members of `VBiasManager` and the globals `SetState` writes. -/
structure VBiasManager where
  bias_state : Int
  /-- A `uint32_t`. -/
  last_advance_tick : Int
  /-- Argument of the last `OC::DAC::set_Vbias`. -/
  Vbias : Int
  /-- The global `OC::DAC::kOctaveZero`. -/
  kOctaveZero : Int
  /-- The global `HS::octave_max`. -/
  octave_max : Int
deriving DecidableEq

/-- The constructor `VBiasManager()`: it assigns the two members; the globals keep
the values `g` they had. -/
def new (g : VBiasManager) : VBiasManager :=
  { g with bias_state := 0, last_advance_tick := 0 }

/-- The method `SetState(new_bias_state)`; the argument is the value of the enumerator. -/
def SetState (c : Calibration) (m : VBiasManager) (new_bias_state : Int) : VBiasManager :=
  let new_bias_value : Int := ((c.v_bias &&& 0xFFFF : Nat) : Int)
  let new_bias_value := if new_bias_state = UNI then c.VBiasUnipolar else new_bias_value
  let new_bias_value :=
    if new_bias_state = ASYM then ((c.v_bias >>> 16 : Nat) : Int) else new_bias_value
  let m := { m with Vbias := new_bias_value }
  let m := { m with bias_state := new_bias_state }
  let m := { m with kOctaveZero := OCTAVE_BIAS.getD m.bias_state.toNat 0 }
  { m with octave_max := OCTAVE_MAX.getD m.bias_state.toNat 0 }

/-- The test `OC::CORE::ticks - last_advance_tick < BIAS_EDITOR_TIMEOUT`, in 32-bit
unsigned arithmetic. -/
def withinTimeout (ticks : Int) (m : VBiasManager) : Prop :=
  BootsNCat.wrapUInt32 (ticks - m.last_advance_tick) < BIAS_EDITOR_TIMEOUT

instance (ticks : Int) (m : VBiasManager) : Decidable (withinTimeout ticks m) := by
  unfold withinTimeout; exact inferInstance

/-- The method `AdvanceBias()`, called while `OC::CORE::ticks` has the value `ticks`. -/
def AdvanceBias (c : Calibration) (ticks : Int) (m : VBiasManager) : VBiasManager :=
  let m :=
    if withinTimeout ticks m then
      let m := { m with bias_state := BootsNCat.wrapInt32 (m.bias_state + 1) }
      let m := if m.bias_state > 2 then { m with bias_state := 0 } else m
      SetState c m m.bias_state
    else m
  { m with last_advance_tick := BootsNCat.wrapUInt32 ticks }

/-- The method `GetState()`. -/
def GetState (m : VBiasManager) : Int := m.bias_state

/-- The calls made on the manager: the button (`AdvanceBias` at a tick count) and
`SetState` with one of the three enumerators. -/
inductive Call where
  | advance (ticks : Int)
  | setBI
  | setASYM
  | setUNI

/-- The manager after one call. -/
def call (c : Calibration) (m : VBiasManager) : Call → VBiasManager
  | Call.advance ticks => AdvanceBias c ticks m
  | Call.setBI => SetState c m BI
  | Call.setASYM => SetState c m ASYM
  | Call.setUNI => SetState c m UNI

/-- The manager after a sequence of calls. -/
def calls (c : Calibration) (m : VBiasManager) (cs : List Call) : VBiasManager :=
  cs.foldl (call c) m

/-- Calibration values and globals used to evaluate the model on concrete inputs. -/
def sampleCalibration : Calibration := { v_bias := 0x0C001000, VBiasUnipolar := 3900 }

/-- Globals at power-on, before the manager is constructed. -/
def powerOn : VBiasManager :=
  { bias_state := 0, last_advance_tick := 0, Vbias := 0, kOctaveZero := 0, octave_max := 0 }

end VBias

/-! # The arpeggiator chord table

A transcription of `software/o_c_REV/hem_arp_chord.h`. -/

namespace ArpChords

/-- The struct `hem_arp_chord`. The member `chord_tones` holds the tones as the
initialiser lists them; the C array `chord_tones[12]` is that list followed by
zeros (`chord_tones_array`). -/
structure hem_arp_chord where
  chord_name : String
  chord_tones : List Int
  nr_notes : Nat
  octave_span : Int
deriving DecidableEq

/-- The twelve elements of the C array `chord_tones[12]` of an entry. -/
def chord_tones_array (c : hem_arp_chord) : List Int :=
  c.chord_tones ++ List.replicate (12 - c.chord_tones.length) 0

/-- The constant `Nr_of_arp_chords`. -/
def Nr_of_arp_chords : Int := 55

/-- The table `Arp_Chords`. -/
def Arp_Chords : List hem_arp_chord :=
  [
    ⟨"Octaves", [0], 1, 1⟩,
    ⟨"1 5", [0, 7], 2, 1⟩,
    ⟨"Maj triad", [0, 4, 7], 3, 1⟩,
    ⟨"Maj inv 1", [4, 7, 12], 3, 1⟩,
    ⟨"Maj inv 2", [7, 12, 16], 3, 1⟩,
    ⟨"min triad", [0, 3, 7], 3, 1⟩,
    ⟨"min inv 1", [3, 7, 12], 3, 1⟩,
    ⟨"min inv 2", [7, 12, 15], 3, 1⟩,
    ⟨"dim triad", [0, 3, 6], 3, 1⟩,
    ⟨"aug triad", [0, 4, 8], 3, 1⟩,
    ⟨"sus2", [0, 2, 7], 3, 1⟩,
    ⟨"sus4", [0, 5, 7], 3, 1⟩,
    ⟨"add2", [0, 2, 4, 7], 4, 1⟩,
    ⟨"min(add2)", [0, 2, 3, 7], 4, 1⟩,
    ⟨"add4", [0, 4, 5, 7], 4, 1⟩,
    ⟨"min(add4)", [0, 3, 5, 7], 4, 1⟩,
    ⟨"sus4(add2)", [0, 2, 6, 7], 4, 1⟩,
    ⟨"1 2 3 4 5", [0, 2, 4, 5, 7], 5, 1⟩,
    ⟨"1 2 b3 4 5", [0, 2, 3, 5, 7], 5, 1⟩,
    ⟨"add(#11)", [0, 4, 6, 7], 4, 1⟩,
    ⟨"Maj6", [0, 4, 7, 9], 4, 1⟩,
    ⟨"min6", [0, 3, 7, 9], 4, 1⟩,
    ⟨"Maj7", [0, 4, 7, 11], 4, 1⟩,
    ⟨"7", [0, 4, 7, 10], 4, 1⟩,
    ⟨"7sus2", [0, 2, 7, 10], 4, 1⟩,
    ⟨"7sus4", [0, 5, 7, 10], 4, 1⟩,
    ⟨"min7", [0, 3, 7, 10], 4, 1⟩,
    ⟨"dim7", [0, 3, 6, 8], 4, 1⟩,
    ⟨"Maj9", [0, 4, 7, 11, 14], 5, 1⟩,
    ⟨"Maj6/9", [0, 4, 7, 9, 14], 5, 1⟩,
    ⟨"Maj#11", [0, 4, 7, 11, 14, 18], 6, 2⟩,
    ⟨"9", [0, 4, 7, 10, 14], 5, 1⟩,
    ⟨"7(b9)", [0, 4, 7, 10, 13], 5, 1⟩,
    ⟨"7(b9,b13)", [0, 4, 7, 10, 13, 20], 6, 2⟩,
    ⟨"Ionian", [0, 2, 4, 5, 7, 9, 11], 7, 1⟩,
    ⟨"Dorian", [0, 2, 3, 5, 7, 9, 10], 7, 1⟩,
    ⟨"Phrygian", [0, 1, 3, 5, 7, 8, 10], 7, 1⟩,
    ⟨"Lydian", [0, 2, 4, 6, 7, 9, 11], 7, 1⟩,
    ⟨"Mixolydian", [0, 2, 4, 5, 7, 9, 10], 7, 1⟩,
    ⟨"Aeolian", [0, 2, 3, 5, 7, 8, 10], 7, 1⟩,
    ⟨"Locrian", [0, 1, 3, 5, 6, 8, 10], 7, 1⟩,
    ⟨"Harm Min", [0, 2, 3, 5, 7, 8, 11], 7, 1⟩,
    ⟨"Mel Min", [0, 2, 3, 5, 7, 9, 11], 7, 1⟩,
    ⟨"Penta", [0, 2, 4, 7, 9], 5, 1⟩,
    ⟨"min Penta", [0, 3, 5, 7, 10], 5, 1⟩,
    ⟨"Maj Blues", [0, 2, 3, 4, 7, 9], 6, 1⟩,
    ⟨"min Blues", [0, 3, 5, 6, 7, 10], 6, 1⟩,
    ⟨"Bebop", [0, 2, 4, 5, 7, 9, 10, 11], 8, 1⟩,
    ⟨"WholeTone", [0, 2, 4, 6, 8, 10], 6, 1⟩,
    ⟨"Dim 1 1/2", [0, 2, 3, 5, 6, 8, 9, 11], 8, 1⟩,
    ⟨"Dim 1/2 1", [0, 2, 3, 5, 6, 8, 9, 11], 8, 1⟩,
    ⟨"Altered", [0, 1, 3, 4, 6, 8, 10], 7, 1⟩,
    ⟨"Chromatic", [0, 1, 2, 3, 4, 5, 6, 7, 8, 9, 10, 11], 12, 1⟩,
    ⟨"All Fourth", [0, 5, 10, 15, 20, 26, 31], 7, 3⟩,
    ⟨"All Fifths", [0, 7, 14, 21, 28, 35, 41], 7, 4⟩,
    ⟨"Corny Pop", [12, 11, 12, 7, 3, 7, 0, 0], 8, 1⟩ ]

end ArpChords

namespace BootsNCat

/-- Every `Controller` call of the sequence finds envelope `ch` at end-of-cycle. -/
def allEOC (ch : Nat) : List Event → Prop
  | [] => True
  | Event.controller i :: es => i.GetEOC ch = true ∧ allEOC ch es
  | _ :: es => allEOC ch es

/-- A tick on which both envelopes report end-of-cycle; the other replies are as in
`sampleInput`. -/
def restInput : TickInput := { sampleInput with GetEOC := fun _ => true }

/-- A started applet with `blend` set to `b`. -/
def blendState (b : Int) : State :=
  { Start sampleHost zeroState with blend := b }

/-- Replies that give the pre-mix signals of `sampleInput` exchanged: `bass.Next()` =
4607 and a random draw of 5608 (a noise value of 1000). -/
def swappedInput : TickInput := { sampleInput with bassNext := 4607, random := 5608 }

/-! ## The preset codec -/

/-- Calling `Pack` on a word whose bits from `p.location` upwards are clear adds the
shifted value, as long as the shifted value fits in 64 bits. -/
theorem Pack_eq_add (data value : Nat) (p : PackLocation)
    (hd : data < 2 ^ p.location) (hv : value * 2 ^ p.location < 18446744073709551616) :
    Pack data p value = data + value * 2 ^ p.location := by
  unfold Pack
  rw [Nat.shiftLeft_eq, Nat.mod_eq_of_lt hv, Nat.or_comm, Nat.mul_comm value,
    ← Nat.mul_add_lt_is_or hd, Nat.add_comm]

/-- The helper `Unpack` reads the quotient by `2 ^ location` modulo `2 ^ size`. -/
theorem Unpack_eq (data : Nat) (p : PackLocation) :
    Unpack data p = ((data / 2 ^ p.location % 2 ^ p.size : Nat) : Int) := by
  unfold Unpack
  rw [Nat.and_pow_two_sub_one_eq_mod, Nat.shiftRight_eq_div_pow]

/-- A value in `[0, 63]` is unchanged by the conversion to `uint64_t`. -/
theorem toUInt64_of_range (x : Int) (h0 : 0 ≤ x) (h1 : x ≤ 63) :
    ((toUInt64 x : Nat) : Int) = x ∧ toUInt64 x ≤ 63 := by
  unfold toUInt64
  omega

/-- The word `OnDataRequest` returns, as a sum, for parameters in range. -/
theorem OnDataRequest_eq_sum (s : State) (hs : ParamsInRange s) :
    OnDataRequest s = toUInt64 (s.tone.get 0) + toUInt64 (s.decay.get 0) * 2 ^ 6
      + toUInt64 (s.tone.get 1) * 2 ^ 12 + toUInt64 (s.decay.get 1) * 2 ^ 18
      + toUInt64 s.blend * 2 ^ 24 := by
  obtain ⟨⟨a0, a1⟩, ⟨b0, b1⟩, ⟨c0, c1⟩, ⟨d0, d1⟩, e0, e1⟩ := hs
  have ha := (toUInt64_of_range _ a0 a1).2
  have hb := (toUInt64_of_range _ b0 b1).2
  have hc := (toUInt64_of_range _ c0 c1).2
  have hd := (toUInt64_of_range _ d0 d1).2
  have he := (toUInt64_of_range _ e0 e1).2
  unfold OnDataRequest
  simp only []
  rw [Pack_eq_add 0 _ ⟨0, 6⟩ (by norm_num) (by simp only []; omega)]
  rw [Pack_eq_add _ _ ⟨6, 6⟩ (by simp only []; omega) (by simp only []; omega)]
  rw [Pack_eq_add _ _ ⟨12, 6⟩ (by simp only []; omega) (by simp only []; omega)]
  rw [Pack_eq_add _ _ ⟨18, 6⟩ (by simp only []; omega) (by simp only []; omega)]
  rw [Pack_eq_add _ _ ⟨24, 6⟩ (by simp only []; omega) (by simp only []; omega)]
  simp only []
  omega

/-- C2: for parameters in `[0, 63]`, `OnDataRequest` returns exactly
`tone0 + 2^6 * decay0 + 2^12 * tone1 + 2^18 * decay1 + 2^24 * blend` (the five
fields at bit offsets 0, 6, 12, 18, 24, not overlapping), a word below `2^30`. -/
theorem OnDataRequest_layout (s : State) (hs : ParamsInRange s) :
    ((OnDataRequest s : Nat) : Int)
        = s.tone.get 0 + 2 ^ 6 * s.decay.get 0 + 2 ^ 12 * s.tone.get 1
          + 2 ^ 18 * s.decay.get 1 + 2 ^ 24 * s.blend
      ∧ OnDataRequest s < 2 ^ 30 := by
  have hsum := OnDataRequest_eq_sum s hs
  obtain ⟨⟨a0, a1⟩, ⟨b0, b1⟩, ⟨c0, c1⟩, ⟨d0, d1⟩, e0, e1⟩ := hs
  obtain ⟨ha, ha'⟩ := toUInt64_of_range _ a0 a1
  obtain ⟨hb, hb'⟩ := toUInt64_of_range _ b0 b1
  obtain ⟨hc, hc'⟩ := toUInt64_of_range _ c0 c1
  obtain ⟨hd, hd'⟩ := toUInt64_of_range _ d0 d1
  obtain ⟨he, he'⟩ := toUInt64_of_range _ e0 e1
  constructor
  · rw [hsum]
    push_cast
    rw [ha, hb, hc, hd, he]
    ring
  · rw [hsum]
    omega

/-- C2 at the parameters 63, 0, 1, 62, 63: the word is 1073221695. -/
theorem OnDataRequest_layout_witness :
    ParamsInRange sampleState
      ∧ (((OnDataRequest sampleState : Nat) : Int)
          = sampleState.tone.get 0 + 2 ^ 6 * sampleState.decay.get 0
            + 2 ^ 12 * sampleState.tone.get 1 + 2 ^ 18 * sampleState.decay.get 1
            + 2 ^ 24 * sampleState.blend
        ∧ OnDataRequest sampleState < 2 ^ 30) :=
  ⟨by decide, OnDataRequest_layout sampleState (by decide)⟩

/-- C1: for parameters in `[0, 63]`, `OnDataReceive` applied (in any state) to the
word `OnDataRequest` returned restores exactly the same five values. -/
theorem OnDataReceive_OnDataRequest (s r : State) (hs : ParamsInRange s) :
    (OnDataReceive r (OnDataRequest s)).tone = s.tone
      ∧ (OnDataReceive r (OnDataRequest s)).decay = s.decay
      ∧ (OnDataReceive r (OnDataRequest s)).blend = s.blend := by
  have hsum := OnDataRequest_eq_sum s hs
  obtain ⟨⟨a0, a1⟩, ⟨b0, b1⟩, ⟨c0, c1⟩, ⟨d0, d1⟩, e0, e1⟩ := hs
  obtain ⟨ha, ha'⟩ := toUInt64_of_range _ a0 a1
  obtain ⟨hb, hb'⟩ := toUInt64_of_range _ b0 b1
  obtain ⟨hc, hc'⟩ := toUInt64_of_range _ c0 c1
  obtain ⟨hd, hd'⟩ := toUInt64_of_range _ d0 d1
  obtain ⟨he, he'⟩ := toUInt64_of_range _ e0 e1
  have u0 : Unpack (OnDataRequest s) ⟨0, 6⟩ = s.tone.get 0 := by
    rw [Unpack_eq, hsum]; simp only []; omega
  have u1 : Unpack (OnDataRequest s) ⟨6, 6⟩ = s.decay.get 0 := by
    rw [Unpack_eq, hsum]; simp only []; omega
  have u2 : Unpack (OnDataRequest s) ⟨12, 6⟩ = s.tone.get 1 := by
    rw [Unpack_eq, hsum]; simp only []; omega
  have u3 : Unpack (OnDataRequest s) ⟨18, 6⟩ = s.decay.get 1 := by
    rw [Unpack_eq, hsum]; simp only []; omega
  have u4 : Unpack (OnDataRequest s) ⟨24, 6⟩ = s.blend := by
    rw [Unpack_eq, hsum]; simp only []; omega
  have w4 : wrapInt8 s.blend = s.blend := by unfold wrapInt8; omega
  unfold OnDataReceive
  simp only [u0, u1, u2, u3, u4, w4, Arr2.set, Arr2.get, if_true, if_false,
    one_ne_zero, and_true]

/-- C1 at the parameters 63, 0, 1, 62, 63, received by a freshly started applet. -/
theorem OnDataReceive_OnDataRequest_witness :
    ParamsInRange sampleState
      ∧ ((OnDataReceive (Start sampleHost zeroState) (OnDataRequest sampleState)).tone
          = sampleState.tone
        ∧ (OnDataReceive (Start sampleHost zeroState) (OnDataRequest sampleState)).decay
          = sampleState.decay
        ∧ (OnDataReceive (Start sampleHost zeroState) (OnDataRequest sampleState)).blend
          = sampleState.blend) :=
  ⟨by decide,
    OnDataReceive_OnDataRequest sampleState (Start sampleHost zeroState) (by decide)⟩

/-! ## The edit handler -/

/-- The value `constrain x 0 63` lies in `[0, 63]`, whatever `x` is. -/
theorem constrain_range (x : Int) :
    0 ≤ constrain x 0 BNC_MAX_PARAM ∧ constrain x 0 BNC_MAX_PARAM ≤ 63 := by
  unfold constrain BNC_MAX_PARAM
  split_ifs <;> omega

/-- The value `constrain x 0 63` is the clamp `min 63 (max 0 x)`. -/
theorem constrain_eq_min_max (x : Int) :
    constrain x 0 BNC_MAX_PARAM = min 63 (max 0 x) := by
  unfold constrain BNC_MAX_PARAM
  split_ifs <;> omega

/-- Storing a value of `[0, 63]` in an `int8_t` keeps it. -/
theorem wrapInt8_constrain (x : Int) :
    wrapInt8 (constrain x 0 BNC_MAX_PARAM) = constrain x 0 BNC_MAX_PARAM := by
  have h := constrain_range x
  unfold wrapInt8
  omega

/-- Storing a clamped value in an `int8_t` keeps it. -/
theorem wrapInt8_min_max (x : Int) : wrapInt8 (min 63 (max 0 x)) = min 63 (max 0 x) := by
  rw [← constrain_eq_min_max]
  exact wrapInt8_constrain x

/-- A sum in the range of `int` is computed exactly. -/
theorem wrapInt32_of_IsInt32 (x : Int) (h : IsInt32 x) : wrapInt32 x = x := by
  unfold IsInt32 at h
  unfold wrapInt32
  omega

/-- C3, as amended: in edit mode, for a cursor in `[0, 4]`, a selected parameter `v`
in `[0, 63]` and a direction whose sum `v + direction` is representable in a
32-bit `int`, `OnEncoderMove` sets the selected parameter to
`min 63 (max 0 (v + direction))`. -/
theorem OnEncoderMove_clamps (h : Host) (s : State) (direction : Int)
    (hc0 : 0 ≤ s.cursor) (hc4 : s.cursor ≤ 4)
    (hsum : IsInt32 (selectedParam s + direction)) :
    selectedParam (OnEncoderMove h true s direction)
      = min 63 (max 0 (selectedParam s + direction)) := by
  have hcur : s.cursor = 0 ∨ s.cursor = 1 ∨ s.cursor = 2 ∨ s.cursor = 3 ∨ s.cursor = 4 := by
    omega
  rcases hcur with hk | hk | hk | hk | hk <;>
    simp [selectedParam, hk, Arr2.get] at hsum ⊢ <;>
    simp [OnEncoderMove, hk, wrapUInt8, SetBDFreq, SetEGFreq, Arr2.get, Arr2.set,
      wrapInt8_min_max, wrapInt32_of_IsInt32 _ hsum, constrain_eq_min_max]

/-- C3 as amended, at `tone[0] = 63` moved by `+5`: it stays 63. -/
theorem OnEncoderMove_clamps_witness :
    (0 ≤ ({ zeroState with tone := ⟨63, 0⟩ } : State).cursor
      ∧ ({ zeroState with tone := ⟨63, 0⟩ } : State).cursor ≤ 4
      ∧ IsInt32 (selectedParam { zeroState with tone := ⟨63, 0⟩ } + 5))
    ∧ selectedParam (OnEncoderMove sampleHost true { zeroState with tone := ⟨63, 0⟩ } 5)
        = min 63 (max 0 (selectedParam { zeroState with tone := ⟨63, 0⟩ } + 5)) :=
  ⟨by decide,
    OnEncoderMove_clamps sampleHost { zeroState with tone := ⟨63, 0⟩ } 5
      (by decide) (by decide) (by decide)⟩

/-- C3 as stated fails: in edit mode with the cursor on `tone[0] = 63`, the
direction `2147483647` (the largest `int`) makes `tone[0] + direction` leave the
range of `int`; the 32-bit sum is negative and the parameter becomes 0, not
`min 63 (max 0 (63 + 2147483647)) = 63`. -/
theorem OnEncoderMove_wraps_at_int_max :
    selectedParam { zeroState with tone := ⟨63, 0⟩ } = 63
      ∧ selectedParam
          (OnEncoderMove sampleHost true { zeroState with tone := ⟨63, 0⟩ } 2147483647) = 0
      ∧ selectedParam
          (OnEncoderMove sampleHost true { zeroState with tone := ⟨63, 0⟩ } 2147483647)
        ≠ min 63 (max 0 (selectedParam { zeroState with tone := ⟨63, 0⟩ } + 2147483647)) := by
  decide

/-- The method `Start` sets the five parameters to values of `[0, 63]`. -/
theorem Start_ParamsInRange (h : Host) (s : State) : ParamsInRange (Start h s) := by
  simp [ParamsInRange, Start, StartChannel, SetEGFreq, SetBDFreq, Arr2.get, Arr2.set]

/-- The method `OnEncoderMove` keeps the five parameters in `[0, 63]`, whatever the mode, the
cursor and the direction. -/
theorem OnEncoderMove_ParamsInRange (h : Host) (editMode : Bool) (s : State) (direction : Int)
    (hs : ParamsInRange s) : ParamsInRange (OnEncoderMove h editMode s direction) := by
  have hc := constrain_range
  have hw := wrapInt8_constrain
  unfold ParamsInRange at hs ⊢
  simp only [Arr2.get, if_true, one_ne_zero, if_false] at hs
  obtain ⟨⟨a0, a1⟩, ⟨b0, b1⟩, ⟨c0, c1⟩, ⟨d0, d1⟩, e0, e1⟩ := hs
  unfold OnEncoderMove
  cases editMode
  · simp [Arr2.get, *]
  · by_cases h4 : s.cursor = 4
    · simp [h4, hw, hc, Arr2.get, *]
    · by_cases h1 : s.cursor > 1
      · by_cases hc0 : wrapUInt8 (wrapUInt8 s.cursor - 2) = 0
        · have hc1 : wrapUInt8 (wrapUInt8 s.cursor - 2) ≠ 1 := by omega
          simp [h4, h1, hc0, hc1, SetBDFreq, SetEGFreq, Arr2.get, Arr2.set, hc, *]
        · by_cases hc1 : wrapUInt8 (wrapUInt8 s.cursor - 2) = 1
          · simp [h4, h1, hc0, hc1, SetBDFreq, SetEGFreq, Arr2.get, Arr2.set, hc, *]
          · simp [h4, h1, hc0, hc1, SetBDFreq, SetEGFreq, Arr2.get, Arr2.set, hc, *]
      · by_cases hc0 : wrapUInt8 s.cursor = 0
        · have hc1 : wrapUInt8 s.cursor ≠ 1 := by omega
          simp [h4, h1, hc0, hc1, SetBDFreq, SetEGFreq, Arr2.get, Arr2.set, hc, *]
        · by_cases hc1 : wrapUInt8 s.cursor = 1
          · simp [h4, h1, hc0, hc1, SetBDFreq, SetEGFreq, Arr2.get, Arr2.set, hc, *]
          · simp [h4, h1, hc0, hc1, SetBDFreq, SetEGFreq, Arr2.get, Arr2.set, hc, *]

/-! ## The controller -/

/-- The first loop of `Controller` only touches the envelope oscillators. -/
theorem ControllerChannels_frame (h : Host) (i : TickInput) (s : State) :
    ([0, 1].foldl (ControllerChannel h i) s).tone = s.tone
      ∧ ([0, 1].foldl (ControllerChannel h i) s).decay = s.decay
      ∧ ([0, 1].foldl (ControllerChannel h i) s).blend = s.blend
      ∧ ([0, 1].foldl (ControllerChannel h i) s).levels = s.levels
      ∧ ([0, 1].foldl (ControllerChannel h i) s).noise = s.noise
      ∧ ([0, 1].foldl (ControllerChannel h i) s).noise_tone_countdown = s.noise_tone_countdown
      ∧ ([0, 1].foldl (ControllerChannel h i) s).cursor = s.cursor
      ∧ ([0, 1].foldl (ControllerChannel h i) s).bass = s.bass := by
  simp only [List.foldl, ControllerChannel]
  split_ifs <;> simp

/-- The noise source after one `Controller` call: it regenerates exactly when the
decremented countdown is zero. -/
theorem Controller_noise (h : Host) (s : State) (i : TickInput) :
    (Controller h s i).state.noise
        = (if wrapInt32 (s.noise_tone_countdown - 1) = 0
            then wrapUInt32 (i.random - (12 * 2 ^ 7) * 3) else s.noise)
      ∧ (Controller h s i).state.noise_tone_countdown
        = (if wrapInt32 (s.noise_tone_countdown - 1) = 0
            then wrapInt32 (BNC_MAX_PARAM - s.tone.get 1 + 1)
            else wrapInt32 (s.noise_tone_countdown - 1))
      ∧ (Controller h s i).random_calls
        = (if wrapInt32 (s.noise_tone_countdown - 1) = 0 then 1 else 0) := by
  obtain ⟨f1, f2, f3, f4, f5, f6, f7, f8⟩ := ControllerChannels_frame h i s
  unfold Controller PreMix
  generalize List.foldl (ControllerChannel h i) s [0, 1] = s' at *
  cases i.GetEOC 0 <;> cases i.GetEOC 1 <;> simp [*] <;> split_ifs <;> simp_all

/-- The method `Controller` leaves the parameters, the cursor and the bass oscillator
configuration alone. -/
theorem Controller_params (h : Host) (s : State) (i : TickInput) :
    (Controller h s i).state.tone = s.tone
      ∧ (Controller h s i).state.decay = s.decay
      ∧ (Controller h s i).state.blend = s.blend
      ∧ (Controller h s i).state.cursor = s.cursor
      ∧ (Controller h s i).state.bass = s.bass := by
  obtain ⟨f1, f2, f3, f4, f5, f6, f7, f8⟩ := ControllerChannels_frame h i s
  unfold Controller PreMix
  generalize List.foldl (ControllerChannel h i) s [0, 1] = s' at *
  cases i.GetEOC 0 <;> cases i.GetEOC 1 <;> simp [*] <;> split_ifs <;> simp_all

/-! ## Parameters stay in range -/

/-- The result of `Unpack` on a 6-bit field lies in `[0, 63]`. -/
theorem Unpack_six_range (data location : Nat) :
    0 ≤ Unpack data ⟨location, 6⟩ ∧ Unpack data ⟨location, 6⟩ ≤ 63 := by
  rw [Unpack_eq]
  simp only []
  omega

/-- The method `OnDataReceive` leaves the five parameters in `[0, 63]`, whatever the word. -/
theorem OnDataReceive_ParamsInRange (s : State) (data : Nat) :
    ParamsInRange (OnDataReceive s data) := by
  have u0 := Unpack_six_range data 0
  have u1 := Unpack_six_range data 6
  have u2 := Unpack_six_range data 12
  have u3 := Unpack_six_range data 18
  have u4 := Unpack_six_range data 24
  have w4 : wrapInt8 (Unpack data ⟨24, 6⟩) = Unpack data ⟨24, 6⟩ := by
    unfold wrapInt8; omega
  simp [ParamsInRange, OnDataReceive, Arr2.get, Arr2.set, w4, *]

/-- Every call keeps the parameters in range. -/
theorem step_ParamsInRange (h : Host) (s : State) (e : Event) (hs : ParamsInRange s) :
    ParamsInRange (step h s e) := by
  cases e with
  | encoder editMode direction => exact OnEncoderMove_ParamsInRange h editMode s direction hs
  | dataReceive data => exact OnDataReceive_ParamsInRange s data
  | controller i =>
    obtain ⟨f1, f2, f3, _, _⟩ := Controller_params h s i
    unfold ParamsInRange at hs ⊢
    simp only [step, f1, f2, f3]
    exact hs

/-- Every sequence of calls keeps the parameters in range. -/
theorem run_ParamsInRange (h : Host) (es : List Event) :
    ∀ s : State, ParamsInRange s → ParamsInRange (run h s es) := by
  induction es with
  | nil => intro s hs; exact hs
  | cons e es ih =>
    intro s hs
    exact ih (step h s e) (step_ParamsInRange h s e hs)

/-- C4: in every state reached from `Start` by any sequence of `OnEncoderMove` (any
direction, either mode), `OnDataReceive` (any word) and `Controller` calls, the
five parameters `tone[0]`, `decay[0]`, `tone[1]`, `decay[1]`, `blend` lie in
`[0, 63]`. -/
theorem ParamsInRange_reachable (h : Host) (s0 : State) (es : List Event) :
    ParamsInRange (run h (Start h s0) es) :=
  run_ParamsInRange h es (Start h s0) (Start_ParamsInRange h s0)

/-! ## What an edit leaves alone -/

/-- The method `OnEncoderMove` never touches the signal state, whatever the mode and cursor. -/
theorem OnEncoderMove_signal (h : Host) (editMode : Bool) (s : State) (direction : Int) :
    (OnEncoderMove h editMode s direction).levels = s.levels
      ∧ (OnEncoderMove h editMode s direction).noise = s.noise
      ∧ (OnEncoderMove h editMode s direction).noise_tone_countdown
          = s.noise_tone_countdown := by
  unfold OnEncoderMove
  cases editMode
  · simp
  · by_cases h4 : s.cursor = 4
    · simp [h4]
    · simp only [h4, SetBDFreq, SetEGFreq]
      split_ifs <;> simp

/-- C5: outside edit mode `OnEncoderMove` changes no parameter and no signal state
(`levels`, `noise`, `noise_tone_countdown`); in edit mode it changes no signal
state, and with the cursor in `[0, 4]` it changes none of the four parameters
the cursor does not select (0 `tone[0]`, 1 `decay[0]`, 2 `tone[1]`,
3 `decay[1]`, 4 `blend`). -/
theorem OnEncoderMove_frame (h : Host) (s : State) (direction : Int) :
    ((OnEncoderMove h false s direction).tone = s.tone
      ∧ (OnEncoderMove h false s direction).decay = s.decay
      ∧ (OnEncoderMove h false s direction).blend = s.blend
      ∧ (OnEncoderMove h false s direction).levels = s.levels
      ∧ (OnEncoderMove h false s direction).noise = s.noise
      ∧ (OnEncoderMove h false s direction).noise_tone_countdown = s.noise_tone_countdown)
    ∧ ((OnEncoderMove h true s direction).levels = s.levels
      ∧ (OnEncoderMove h true s direction).noise = s.noise
      ∧ (OnEncoderMove h true s direction).noise_tone_countdown = s.noise_tone_countdown)
    ∧ (0 ≤ s.cursor ∧ s.cursor ≤ 4 →
        (s.cursor ≠ 0 → (OnEncoderMove h true s direction).tone.get 0 = s.tone.get 0)
      ∧ (s.cursor ≠ 1 → (OnEncoderMove h true s direction).decay.get 0 = s.decay.get 0)
      ∧ (s.cursor ≠ 2 → (OnEncoderMove h true s direction).tone.get 1 = s.tone.get 1)
      ∧ (s.cursor ≠ 3 → (OnEncoderMove h true s direction).decay.get 1 = s.decay.get 1)
      ∧ (s.cursor ≠ 4 → (OnEncoderMove h true s direction).blend = s.blend)) := by
  refine ⟨?_, OnEncoderMove_signal h true s direction, ?_⟩
  · simp [OnEncoderMove]
  · rintro ⟨hc0, hc4⟩
    have hcur : s.cursor = 0 ∨ s.cursor = 1 ∨ s.cursor = 2 ∨ s.cursor = 3 ∨ s.cursor = 4 := by
      omega
    rcases hcur with hk | hk | hk | hk | hk <;>
      simp [OnEncoderMove, hk, wrapUInt8, SetBDFreq, SetEGFreq, Arr2.get, Arr2.set]

/-- C5 with the cursor on `tone[1]`: a move by 5 in edit mode leaves `blend` at 63. -/
theorem OnEncoderMove_frame_witness :
    (0 ≤ sampleState.cursor ∧ sampleState.cursor ≤ 4)
      ∧ sampleState.cursor ≠ 4
      ∧ (OnEncoderMove sampleHost true sampleState 5).blend = sampleState.blend :=
  ⟨by decide, by decide,
    ((OnEncoderMove_frame sampleHost sampleState 5).2.2 (by decide)).2.2.2.2 (by decide)⟩

/-! ## The blend stage -/

/-- The whole of a signal: `Proportion d d m = m`. -/
theorem Proportion_self (d m : Int) (hd : d ≠ 0) : Proportion d d m = m := by
  unfold Proportion
  exact Int.mul_tdiv_cancel_left m hd

/-- Nothing of a signal: `Proportion 0 d m = 0`. -/
theorem Proportion_zero (d m : Int) : Proportion 0 d m = 0 := by
  unfold Proportion
  simp

/-- A non-negative share of a signal in `[lo, hi]` (with `lo ≤ 0 ≤ hi`), times the
denominator, lies between the shares of the bounds: truncation moves the
quotient toward zero only. -/
theorem Proportion_bounds (n d x lo hi : Int) (hn : 0 ≤ n) (hd : 0 < d)
    (hlo : lo ≤ 0) (hhi : 0 ≤ hi) (hx0 : lo ≤ x) (hx1 : x ≤ hi) :
    n * lo ≤ d * Proportion n d x ∧ d * Proportion n d x ≤ n * hi := by
  unfold Proportion
  have hnlo : n * lo ≤ 0 := Int.mul_nonpos_of_nonneg_of_nonpos hn hlo
  have hnhi : 0 ≤ n * hi := Int.mul_nonneg hn hhi
  have hx0' : n * lo ≤ n * x := Int.mul_le_mul_of_nonneg_left hx0 hn
  have hx1' : n * x ≤ n * hi := Int.mul_le_mul_of_nonneg_left hx1 hn
  rcases le_or_lt 0 (n * x) with hpos | hneg
  · rw [Int.tdiv_eq_ediv hpos (le_of_lt hd)]
    have h1 : 0 ≤ n * x / d := Int.ediv_nonneg hpos (le_of_lt hd)
    have h2 : d * (n * x / d) ≤ n * x := Int.mul_ediv_self_le (ne_of_gt hd)
    have h3 : 0 ≤ d * (n * x / d) := Int.mul_nonneg (le_of_lt hd) h1
    constructor <;> linarith
  · have e : (n * x).tdiv d = -((-(n * x)).tdiv d) := by
      rw [Int.neg_tdiv, neg_neg]
    have hpos : 0 ≤ -(n * x) := by linarith
    rw [e, Int.tdiv_eq_ediv hpos (le_of_lt hd)]
    have h1 : 0 ≤ -(n * x) / d := Int.ediv_nonneg hpos (le_of_lt hd)
    have h2 : d * (-(n * x) / d) ≤ -(n * x) := Int.mul_ediv_self_le (ne_of_gt hd)
    have h3 : 0 ≤ d * (-(n * x) / d) := Int.mul_nonneg (le_of_lt hd) h1
    constructor <;> linarith

/-- The outputs of `Controller` are the two blend formulas applied to the pre-mix
signals and the current `blend`. -/
theorem Controller_outputs (h : Host) (s : State) (i : TickInput) :
    (Controller h s i).out0
        = BassDrumOutput s.blend (PreMix h s i).2.1 (PreMix h s i).2.2.1
      ∧ (Controller h s i).out1
        = SnareDrumOutput s.blend (PreMix h s i).2.1 (PreMix h s i).2.2.1 := by
  have hb : (PreMix h s i).1.blend = s.blend := (Controller_params h s i).2.2.1
  have h0 : (Controller h s i).out0
      = BassDrumOutput (PreMix h s i).1.blend (PreMix h s i).2.1 (PreMix h s i).2.2.1 := rfl
  have h1 : (Controller h s i).out1
      = SnareDrumOutput (PreMix h s i).1.blend (PreMix h s i).2.1 (PreMix h s i).2.2.1 := rfl
  rw [h0, h1, hb]
  exact ⟨rfl, rfl⟩

/-- The two weights of the blend stage, as numbers. -/
theorem blend_weights (blend : Int) :
    (BNC_MAX_PARAM - blend) + BNC_MAX_PARAM = 126 - blend ∧ BNC_MAX_PARAM * 2 = 126 := by
  unfold BNC_MAX_PARAM
  constructor
  · ring
  · norm_num

/-- For a blend in `[0, 63]` and 32-bit signals, the first share and the sum of the
two shares of a blend formula are 32-bit values: no store in the output stage
wraps. -/
theorem blend_no_overflow (blend x y : Int) (hb0 : 0 ≤ blend) (hb1 : blend ≤ 63)
    (hx : IsInt32 x) (hy : IsInt32 y) :
    IsInt32 (Proportion (126 - blend) 126 x)
      ∧ IsInt32 (Proportion (126 - blend) 126 x + Proportion blend 126 y) := by
  unfold IsInt32 at hx hy ⊢
  have h1 := Proportion_bounds (126 - blend) 126 x (-2147483648) 2147483647
    (by linarith) (by norm_num) (by norm_num) (by norm_num) hx.1 (by linarith [hx.2])
  have h2 := Proportion_bounds blend 126 y (-2147483648) 2147483647
    hb0 (by norm_num) (by norm_num) (by norm_num) hy.1 (by linarith [hy.2])
  generalize Proportion (126 - blend) 126 x = p at h1 ⊢
  generalize Proportion blend 126 y = q at h2 ⊢
  obtain ⟨h1a, h1b⟩ := h1
  obtain ⟨h2a, h2b⟩ := h2
  refine ⟨⟨?_, ?_⟩, ?_, ?_⟩ <;> linarith

/-- The bass-drum formula without the 32-bit stores, for a blend in `[0, 63]` and
32-bit signals. -/
theorem BassDrumOutput_eq (blend bd_signal sd_signal : Int) (hb0 : 0 ≤ blend)
    (hb1 : blend ≤ 63) (hbd : IsInt32 bd_signal) (hsd : IsInt32 sd_signal) :
    BassDrumOutput blend bd_signal sd_signal
      = Proportion (126 - blend) 126 bd_signal + Proportion blend 126 sd_signal := by
  obtain ⟨h1, h2⟩ := blend_no_overflow blend bd_signal sd_signal hb0 hb1 hbd hsd
  unfold BassDrumOutput
  simp only [(blend_weights blend).1, (blend_weights blend).2]
  rw [wrapInt32_of_IsInt32 _ h1, wrapInt32_of_IsInt32 _ h2]

/-- The snare-drum formula is the bass-drum formula with the two signals exchanged. -/
theorem SnareDrumOutput_eq_swap (blend bd_signal sd_signal : Int) :
    SnareDrumOutput blend bd_signal sd_signal = BassDrumOutput blend sd_signal bd_signal :=
  rfl

/-- With weight 126 of 126 on `x` and weight 0 on `y`, a blend formula returns the
32-bit signal `x`. -/
theorem blend_zero_keeps (x y : Int) (hx : IsInt32 x) :
    BassDrumOutput 0 x y = x ∧ Proportion 126 126 x + Proportion 0 126 y = x := by
  have e : Proportion 126 126 x + Proportion 0 126 y = x := by
    rw [Proportion_self 126 x (by norm_num), Proportion_zero]
    ring
  refine ⟨?_, e⟩
  unfold BassDrumOutput
  simp only [(blend_weights 0).1, (blend_weights 0).2]
  rw [Proportion_zero, show (126 : Int) - 0 = 126 by norm_num,
    Proportion_self 126 x (by norm_num), wrapInt32_of_IsInt32 _ hx, add_zero,
    wrapInt32_of_IsInt32 _ hx]

/-- The pre-mix signals `Controller` computes are 32-bit values, so the results on
the blend stage apply to every tick. -/
theorem PreMix_signals_IsInt32 (h : Host) (s : State) (i : TickInput) :
    IsInt32 (PreMix h s i).2.1 ∧ IsInt32 (PreMix h s i).2.2.1 := by
  have hw : ∀ x : Int, IsInt32 (wrapInt32 x) := by
    intro x; unfold IsInt32 wrapInt32; omega
  have h0 : IsInt32 0 := by decide
  unfold PreMix
  cases i.GetEOC 0 <;> cases i.GetEOC 1 <;> simp [hw, h0]

/-- C6: at `blend = 0`, on every tick, whatever the bass and snare pre-mix signals
are, the value `Controller` writes to output A is the bass pre-mix signal
exactly: `Proportion(126, 126, bd_signal) + Proportion(0, 126, sd_signal)
= bd_signal`. -/
theorem Controller_out0_blend_zero (h : Host) (s : State) (i : TickInput) (hb : s.blend = 0) :
    (Controller h s i).out0 = (PreMix h s i).2.1
      ∧ (Controller h s i).out0
          = Proportion 126 126 (PreMix h s i).2.1 + Proportion 0 126 (PreMix h s i).2.2.1 := by
  obtain ⟨o0, _⟩ := Controller_outputs h s i
  obtain ⟨hbd, _⟩ := PreMix_signals_IsInt32 h s i
  obtain ⟨k1, k2⟩ := blend_zero_keeps (PreMix h s i).2.1 (PreMix h s i).2.2.1 hbd
  rw [o0, hb, k1, k2]
  exact ⟨rfl, rfl⟩

/-- C6 on the first tick after `Start`: the pre-mix signals are 1000 and 4607 and
output A is 1000. -/
theorem Controller_out0_blend_zero_witness :
    (Start sampleHost zeroState).blend = 0
      ∧ (PreMix sampleHost (Start sampleHost zeroState) sampleInput).2.1 = 1000
      ∧ (PreMix sampleHost (Start sampleHost zeroState) sampleInput).2.2.1 = 4607
      ∧ (Controller sampleHost (Start sampleHost zeroState) sampleInput).out0
          = (PreMix sampleHost (Start sampleHost zeroState) sampleInput).2.1 :=
  ⟨by decide, by decide, by decide,
    (Controller_out0_blend_zero sampleHost (Start sampleHost zeroState) sampleInput
      (by decide)).1⟩

/-- C7, as amended: at `blend = 0`, on every tick, whatever the bass and snare
pre-mix signals are, the value `Controller` writes to output B is the snare
pre-mix signal exactly, `Proportion(126, 126, sd_signal) + Proportion(0, 126,
bd_signal) = sd_signal`; the bass pre-mix signal enters it only with the
minimum weight, `Proportion(0, 126, bd_signal) = 0`. -/
theorem Controller_out1_blend_zero (h : Host) (s : State) (i : TickInput) (hb : s.blend = 0) :
    (Controller h s i).out1 = (PreMix h s i).2.2.1
      ∧ (Controller h s i).out1
          = Proportion 126 126 (PreMix h s i).2.2.1 + Proportion 0 126 (PreMix h s i).2.1
      ∧ Proportion 0 126 (PreMix h s i).2.1 = 0 := by
  obtain ⟨_, o1⟩ := Controller_outputs h s i
  obtain ⟨_, hsd⟩ := PreMix_signals_IsInt32 h s i
  obtain ⟨k1, k2⟩ := blend_zero_keeps (PreMix h s i).2.2.1 (PreMix h s i).2.1 hsd
  rw [o1, hb, SnareDrumOutput_eq_swap, k1, k2]
  exact ⟨rfl, rfl, Proportion_zero 126 _⟩

/-- C7 as amended, on the first tick after `Start`: the pre-mix signals are 1000 and
4607 and output B is 4607. -/
theorem Controller_out1_blend_zero_witness :
    (Start sampleHost zeroState).blend = 0
      ∧ (PreMix sampleHost (Start sampleHost zeroState) sampleInput).2.1 = 1000
      ∧ (PreMix sampleHost (Start sampleHost zeroState) sampleInput).2.2.1 = 4607
      ∧ (Controller sampleHost (Start sampleHost zeroState) sampleInput).out1
          = (PreMix sampleHost (Start sampleHost zeroState) sampleInput).2.2.1 :=
  ⟨by decide, by decide, by decide,
    (Controller_out1_blend_zero sampleHost (Start sampleHost zeroState) sampleInput
      (by decide)).1⟩

/-- C7 as stated fails: on the first tick after `Start` (so `blend = 0`) with both
envelopes at full level, `bass.Next()` = 1000 and a random draw of 9215, the
pre-mix signals are 1000 and 4607 and `Controller` writes 4607 to output B,
not `Proportion(0, 126, 1000) = 0`. -/
theorem out1_blend_zero_is_not_scaled_bass :
    (Start sampleHost zeroState).blend = 0
      ∧ (PreMix sampleHost (Start sampleHost zeroState) sampleInput).2.1 = 1000
      ∧ (PreMix sampleHost (Start sampleHost zeroState) sampleInput).2.2.1 = 4607
      ∧ (Controller sampleHost (Start sampleHost zeroState) sampleInput).out1 = 4607
      ∧ (Controller sampleHost (Start sampleHost zeroState) sampleInput).out1
        ≠ Proportion 0 126 (PreMix sampleHost (Start sampleHost zeroState) sampleInput).2.1 := by
  decide

/-- C8, as amended: at `blend = 63`, on every tick, the values `Controller` writes to
outputs A and B are equal, both `Proportion(63, 126, bass) + Proportion(63,
126, snare)` for the bass and snare pre-mix signals of the tick. -/
theorem Controller_outputs_blend_max (h : Host) (s : State) (i : TickInput)
    (hb : s.blend = 63) :
    (Controller h s i).out0 = (Controller h s i).out1
      ∧ (Controller h s i).out0
          = Proportion 63 126 (PreMix h s i).2.1 + Proportion 63 126 (PreMix h s i).2.2.1 := by
  obtain ⟨o0, o1⟩ := Controller_outputs h s i
  obtain ⟨hbd, hsd⟩ := PreMix_signals_IsInt32 h s i
  have hA := BassDrumOutput_eq 63 _ _ (by norm_num) (by norm_num) hbd hsd
  have hB := BassDrumOutput_eq 63 _ _ (by norm_num) (by norm_num) hsd hbd
  rw [show (126 : Int) - 63 = 63 by norm_num] at hA hB
  rw [o0, o1, hb, SnareDrumOutput_eq_swap, hA, hB]
  exact ⟨add_comm _ _, rfl⟩

/-- C8 as amended, on a tick with the pre-mix signals 1000 and 4607 at `blend = 63`:
both outputs are 2803. -/
theorem Controller_outputs_blend_max_witness :
    (blendState 63).blend = 63
      ∧ (Controller sampleHost (blendState 63) sampleInput).out0 = 2803
      ∧ (Controller sampleHost (blendState 63) sampleInput).out0
          = (Controller sampleHost (blendState 63) sampleInput).out1 :=
  ⟨by decide, by decide,
    (Controller_outputs_blend_max sampleHost (blendState 63) sampleInput (by decide)).1⟩

/-- C8 as stated fails: the same tick at `blend = 63` and at `blend = 0` has the same
pre-mix signals, 1000 (bass) and 4607 (snare); `Controller` writes 2803 to
output A at `blend = 63` but 4607 to output B at `blend = 0`, and 2803 to
output B at `blend = 63` but 1000 to output A at `blend = 0`. -/
theorem Controller_blend_max_is_not_a_swap :
    ((PreMix sampleHost (blendState 63) sampleInput).2.1 = 1000
        ∧ (PreMix sampleHost (blendState 0) sampleInput).2.1 = 1000
        ∧ (PreMix sampleHost (blendState 63) sampleInput).2.2.1 = 4607
        ∧ (PreMix sampleHost (blendState 0) sampleInput).2.2.1 = 4607)
      ∧ (Controller sampleHost (blendState 63) sampleInput).out0 = 2803
      ∧ (Controller sampleHost (blendState 0) sampleInput).out1 = 4607
      ∧ (Controller sampleHost (blendState 63) sampleInput).out1 = 2803
      ∧ (Controller sampleHost (blendState 0) sampleInput).out0 = 1000
      ∧ (Controller sampleHost (blendState 63) sampleInput).out0
          ≠ (Controller sampleHost (blendState 0) sampleInput).out1
      ∧ (Controller sampleHost (blendState 63) sampleInput).out1
          ≠ (Controller sampleHost (blendState 0) sampleInput).out0 := by
  decide

/-- C9: for every blend in `[0, 63]`, on every tick, `Controller` writes
`Proportion(126 - blend, 126, bass) + Proportion(blend, 126, snare)` to output
A and the mirror image to output B; a tick at the same blend whose pre-mix
signals are those of the first exchanged has the two output values
exchanged. -/
theorem Controller_outputs_mirror (h : Host) (s s' : State) (i i' : TickInput)
    (hb0 : 0 ≤ s.blend) (hb1 : s.blend ≤ 63) (hblend : s'.blend = s.blend)
    (hbd : (PreMix h s' i').2.1 = (PreMix h s i).2.2.1)
    (hsd : (PreMix h s' i').2.2.1 = (PreMix h s i).2.1) :
    (Controller h s i).out0
        = Proportion (126 - s.blend) 126 (PreMix h s i).2.1
          + Proportion s.blend 126 (PreMix h s i).2.2.1
      ∧ (Controller h s i).out1
        = Proportion (126 - s.blend) 126 (PreMix h s i).2.2.1
          + Proportion s.blend 126 (PreMix h s i).2.1
      ∧ (Controller h s' i').out0 = (Controller h s i).out1
      ∧ (Controller h s' i').out1 = (Controller h s i).out0 := by
  obtain ⟨o0, o1⟩ := Controller_outputs h s i
  obtain ⟨p0, p1⟩ := Controller_outputs h s' i'
  obtain ⟨kbd, ksd⟩ := PreMix_signals_IsInt32 h s i
  have hA := BassDrumOutput_eq s.blend _ _ hb0 hb1 kbd ksd
  have hB := BassDrumOutput_eq s.blend _ _ hb0 hb1 ksd kbd
  refine ⟨by rw [o0, hA], by rw [o1, SnareDrumOutput_eq_swap, hB], ?_, ?_⟩
  · rw [p0, o1, hblend, hbd, hsd, SnareDrumOutput_eq_swap]
  · rw [p1, o0, hblend, hbd, hsd, SnareDrumOutput_eq_swap]

/-- C9 at `blend = 21`: a tick with the pre-mix signals 1000 and 4607 writes 1600
and 4005; the tick with the signals exchanged writes 4005 and 1600. -/
theorem Controller_outputs_mirror_witness :
    ((0 : Int) ≤ (blendState 21).blend ∧ (blendState 21).blend ≤ 63
        ∧ (PreMix sampleHost (blendState 21) swappedInput).2.1
            = (PreMix sampleHost (blendState 21) sampleInput).2.2.1
        ∧ (PreMix sampleHost (blendState 21) swappedInput).2.2.1
            = (PreMix sampleHost (blendState 21) sampleInput).2.1)
      ∧ (Controller sampleHost (blendState 21) sampleInput).out0 = 1600
      ∧ (Controller sampleHost (blendState 21) sampleInput).out1 = 4005
      ∧ (Controller sampleHost (blendState 21) swappedInput).out0
          = (Controller sampleHost (blendState 21) sampleInput).out1
      ∧ (Controller sampleHost (blendState 21) swappedInput).out1
          = (Controller sampleHost (blendState 21) sampleInput).out0 :=
  ⟨by decide, by decide, by decide,
    (Controller_outputs_mirror sampleHost (blendState 21) (blendState 21) sampleInput
      swappedInput (by decide) (by decide) rfl (by decide) (by decide)).2.2⟩

/-! ## The noise source -/

/-- The method `OnDataReceive` never touches the signal state. -/
theorem OnDataReceive_signal (s : State) (data : Nat) :
    (OnDataReceive s data).levels = s.levels
      ∧ (OnDataReceive s data).noise = s.noise
      ∧ (OnDataReceive s data).noise_tone_countdown = s.noise_tone_countdown := by
  simp [OnDataReceive]

/-- While the countdown `c` (at most 64) exceeds the number of `Controller` calls
in a sequence of calls, the sequence leaves the noise value alone and lowers
the countdown by the number of `Controller` calls. -/
theorem run_holds_noise (h : Host) (es : List Event) :
    ∀ (s : State), s.noise_tone_countdown ≤ 64 →
      (ticks es : Int) < s.noise_tone_countdown →
      (run h s es).noise = s.noise
        ∧ (run h s es).noise_tone_countdown = s.noise_tone_countdown - ticks es := by
  induction es with
  | nil => intro s _ _; simp [run, ticks]
  | cons e es ih =>
    intro s h64 hlt
    cases e with
    | encoder editMode direction =>
      obtain ⟨_, f2, f3⟩ := OnEncoderMove_signal h editMode s direction
      have := ih (OnEncoderMove h editMode s direction) (by rw [f3]; exact h64)
        (by rw [f3]; simpa [ticks] using hlt)
      simpa [run, step, ticks, f2, f3] using this
    | dataReceive data =>
      obtain ⟨_, f2, f3⟩ := OnDataReceive_signal s data
      have := ih (OnDataReceive s data) (by rw [f3]; exact h64)
        (by rw [f3]; simpa [ticks] using hlt)
      simpa [run, step, ticks, f2, f3] using this
    | controller i =>
      obtain ⟨f2, f3, _⟩ := Controller_noise h s i
      have hlt' : (ticks es : Int) + 1 < s.noise_tone_countdown := by
        simpa [ticks] using hlt
      have hw : wrapInt32 (s.noise_tone_countdown - 1) = s.noise_tone_countdown - 1 := by
        unfold wrapInt32; omega
      have hne : ¬ wrapInt32 (s.noise_tone_countdown - 1) = 0 := by
        rw [hw]; omega
      rw [if_neg hne] at f2 f3
      rw [hw] at f3
      have := ih (Controller h s i).state (by rw [f3]; omega) (by rw [f3]; omega)
      rw [f2, f3] at this
      simp only [run, List.foldl, step, ticks] at this ⊢
      constructor
      · exact this.1
      · rw [this.2]; push_cast; ring

/-- C10: let a `Controller` tick regenerate the noise value while `tone[1] = t` in
`[0, 63]`. Whatever calls follow, a later tick preceded by fewer than `63 - t`
ticks since the regeneration draws no random number and leaves the noise value
as the regeneration set it, and the tick preceded by exactly `63 - t` ticks
(the `(64 - t)`-th) finds the noise value still unchanged and regenerates it:
the hold length is `63 - t + 1` ticks. -/
theorem noise_hold_length (h : Host) (s : State) (i0 : TickInput) (t : Int)
    (ht0 : 0 ≤ t) (ht1 : t ≤ 63) (htone : s.tone.get 1 = t)
    (hregen : (Controller h s i0).random_calls = 1) (es : List Event) (i : TickInput) :
    ((ticks es : Int) < 63 - t →
        (Controller h (run h (Controller h s i0).state es) i).random_calls = 0
          ∧ (Controller h (run h (Controller h s i0).state es) i).state.noise
              = (Controller h s i0).state.noise)
      ∧ ((ticks es : Int) = 63 - t →
        (run h (Controller h s i0).state es).noise = (Controller h s i0).state.noise
          ∧ (Controller h (run h (Controller h s i0).state es) i).random_calls = 1
          ∧ (Controller h (run h (Controller h s i0).state es) i).state.noise
              = wrapUInt32 (i.random - (12 * 2 ^ 7) * 3)) := by
  obtain ⟨_, g3, g4⟩ := Controller_noise h s i0
  have hz : wrapInt32 (s.noise_tone_countdown - 1) = 0 := by
    by_contra hne
    rw [if_neg hne] at g4
    omega
  rw [if_pos hz, htone] at g3
  have hnew : (Controller h s i0).state.noise_tone_countdown = 64 - t := by
    rw [g3]; unfold wrapInt32 BNC_MAX_PARAM; omega
  obtain ⟨k2, k3, k4⟩ := Controller_noise h (run h (Controller h s i0).state es) i
  constructor
  · intro hlt
    obtain ⟨r1, r2⟩ := run_holds_noise h es (Controller h s i0).state
      (by rw [hnew]; omega) (by rw [hnew]; omega)
    rw [r2, hnew] at k2 k4
    have hne : ¬ wrapInt32 (64 - t - (ticks es : Int) - 1) = 0 := by
      unfold wrapInt32; omega
    rw [if_neg hne] at k2 k4
    exact ⟨k4, by rw [k2, r1]⟩
  · intro heq
    obtain ⟨r1, r2⟩ := run_holds_noise h es (Controller h s i0).state
      (by rw [hnew]; omega) (by rw [hnew]; omega)
    rw [r2, hnew] at k2 k4
    have hz' : wrapInt32 (64 - t - (ticks es : Int) - 1) = 0 := by
      unfold wrapInt32; omega
    rw [if_pos hz'] at k2 k4
    exact ⟨r1, k4, k2⟩

/-- C10 at `tone[1] = 55`, the first tick after `Start` regenerating: eight further
ticks (and an edit in between) leave the noise value alone, the ninth
regenerates it. -/
theorem noise_hold_length_witness :
    ((0 : Int) ≤ 55 ∧ (55 : Int) ≤ 63 ∧ (Start sampleHost zeroState).tone.get 1 = 55
        ∧ (Controller sampleHost (Start sampleHost zeroState) sampleInput).random_calls = 1
        ∧ (ticks sampleHoldRun : Int) = 63 - 55)
      ∧ (run sampleHost (Controller sampleHost (Start sampleHost zeroState) sampleInput).state
            sampleHoldRun).noise
          = (Controller sampleHost (Start sampleHost zeroState) sampleInput).state.noise
      ∧ (Controller sampleHost
            (run sampleHost (Controller sampleHost (Start sampleHost zeroState) sampleInput).state
              sampleHoldRun) sampleInput).random_calls = 1
      ∧ (Controller sampleHost
            (run sampleHost (Controller sampleHost (Start sampleHost zeroState) sampleInput).state
              sampleHoldRun) sampleInput).state.noise
          = wrapUInt32 (sampleInput.random - (12 * 2 ^ 7) * 3) :=
  ⟨by decide,
    (noise_hold_length sampleHost (Start sampleHost zeroState) sampleInput 55
      (by decide) (by decide) (by decide) (by decide) sampleHoldRun sampleInput).2 (by decide)⟩

/-! ## Oscillator frequencies -/

/-- For non-negative arguments `Proportion` is the floor quotient. -/
theorem Proportion_of_nonneg (n d m : Int) (hn : 0 ≤ n) (hd : 0 ≤ d) (hm : 0 ≤ m) :
    Proportion n d m = n * m / d := by
  unfold Proportion
  exact Int.tdiv_eq_ediv (Int.mul_nonneg hn hm) hd

/-- The frequency `SetBDFreq` configures on the bass oscillator. -/
theorem SetBDFreq_frequency (s : State) :
    (SetBDFreq s).bass.frequency = Proportion (s.tone.get 0) 63 3000 + 3000 := rfl

/-- C11: for tone values `0 ≤ a ≤ b` (in particular in `[0, 63]`), the bass
oscillator frequency `SetBDFreq` configures, `Proportion(tone, 63, 3000) + 3000`,
satisfies `f(a) ≤ f(b)`. -/
theorem SetBDFreq_monotone (s1 s2 : State) (ha : 0 ≤ s1.tone.get 0)
    (hab : s1.tone.get 0 ≤ s2.tone.get 0) :
    (SetBDFreq s1).bass.frequency = Proportion (s1.tone.get 0) 63 3000 + 3000
      ∧ (SetBDFreq s2).bass.frequency = Proportion (s2.tone.get 0) 63 3000 + 3000
      ∧ (SetBDFreq s1).bass.frequency ≤ (SetBDFreq s2).bass.frequency := by
  refine ⟨rfl, rfl, ?_⟩
  rw [SetBDFreq_frequency, SetBDFreq_frequency,
    Proportion_of_nonneg _ 63 3000 ha (by norm_num) (by norm_num),
    Proportion_of_nonneg _ 63 3000 (le_trans ha hab) (by norm_num) (by norm_num)]
  omega

/-- C11 at tone 32 and tone 63: 4523 and 6000. -/
theorem SetBDFreq_monotone_witness :
    ((0 : Int) ≤ (Start sampleHost zeroState).tone.get 0
        ∧ (Start sampleHost zeroState).tone.get 0 ≤ sampleState.tone.get 0)
      ∧ (SetBDFreq (Start sampleHost zeroState)).bass.frequency
          = Proportion ((Start sampleHost zeroState).tone.get 0) 63 3000 + 3000
      ∧ (SetBDFreq sampleState).bass.frequency
          = Proportion (sampleState.tone.get 0) 63 3000 + 3000
      ∧ (SetBDFreq (Start sampleHost zeroState)).bass.frequency
          ≤ (SetBDFreq sampleState).bass.frequency :=
  ⟨by decide,
    SetBDFreq_monotone (Start sampleHost zeroState) sampleState (by decide) (by decide)⟩

/-- C13 fails on the code: after `Start`, `OnDataReceive(0)` sets `tone[0]` to 0 but
leaves the bass oscillator at the frequency 4523 configured for tone 32;
`Proportion(0, 63, 3000) + 3000` is 3000. -/
theorem bass_frequency_stale_after_OnDataReceive :
    (run sampleHost (Start sampleHost zeroState) [Event.dataReceive 0]).tone.get 0 = 0
      ∧ (run sampleHost (Start sampleHost zeroState) [Event.dataReceive 0]).bass.frequency = 4523
      ∧ Proportion
          ((run sampleHost (Start sampleHost zeroState) [Event.dataReceive 0]).tone.get 0)
          63 3000 + 3000 = 3000
      ∧ (run sampleHost (Start sampleHost zeroState) [Event.dataReceive 0]).bass.frequency
        ≠ Proportion
            ((run sampleHost (Start sampleHost zeroState) [Event.dataReceive 0]).tone.get 0)
            63 3000 + 3000 := by
  decide

/-! ## Levels, noise and countdown along a run -/

/-- The cached levels after one `Controller` call: a channel at end-of-cycle keeps
its level, a running channel takes the reply of `Next()`. -/
theorem Controller_levels (h : Host) (s : State) (i : TickInput) :
    (Controller h s i).state.levels.get 0
        = (if i.GetEOC 0 then s.levels.get 0 else i.egNext 0)
      ∧ (Controller h s i).state.levels.get 1
        = (if i.GetEOC 1 then s.levels.get 1 else i.egNext 1) := by
  obtain ⟨f1, f2, f3, f4, f5, f6, f7, f8⟩ := ControllerChannels_frame h i s
  unfold Controller PreMix
  generalize List.foldl (ControllerChannel h i) s [0, 1] = s' at *
  cases i.GetEOC 0 <;> cases i.GetEOC 1 <;> simp [Arr2.get, Arr2.set, *] <;>
    split_ifs <;> simp_all [Arr2.get, Arr2.set]

/-- The snare pre-mix signal: zero at end-of-cycle, else the share of the noise
value, read as a signed 32-bit integer, given by the fresh level. -/
theorem PreMix_sd_signal (h : Host) (s : State) (i : TickInput) :
    (PreMix h s i).2.2.1
      = (if i.GetEOC 1 then 0 else
          wrapInt32 (Proportion (i.egNext 1) h.HEMISPHERE_MAX_CV
            (wrapInt32 (Controller h s i).state.noise))) := by
  unfold Controller PreMix
  cases i.GetEOC 0 <;> cases i.GetEOC 1 <;> simp [Arr2.get, Arr2.set]

/-- While envelope `ch` reports end-of-cycle on every `Controller` call, no call
changes `levels[ch]`. -/
theorem run_holds_level (h : Host) (ch : Nat) (hch : ch < 2) (es : List Event) :
    ∀ s : State, allEOC ch es → (run h s es).levels.get ch = s.levels.get ch := by
  induction es with
  | nil => intro s _; rfl
  | cons e es ih =>
    intro s hall
    cases e with
    | encoder editMode direction =>
      have f := (OnEncoderMove_signal h editMode s direction).1
      have := ih (OnEncoderMove h editMode s direction) hall
      simpa [run, step, f] using this
    | dataReceive data =>
      have f := (OnDataReceive_signal s data).1
      have := ih (OnDataReceive s data) hall
      simpa [run, step, f] using this
    | controller i =>
      obtain ⟨heoc, hrest⟩ := hall
      have := ih (Controller h s i).state hrest
      obtain ⟨l0, l1⟩ := Controller_levels h s i
      have hc : ch = 0 ∨ ch = 1 := by omega
      rcases hc with rfl | rfl
      · rw [heoc, if_pos rfl] at l0
        simpa [run, step, l0] using this
      · rw [heoc, if_pos rfl] at l1
        simpa [run, step, l1] using this

/-- C16: for each channel `ch`, a `Controller` tick on which envelope `ch` reports
the end of its cycle leaves `levels[ch]` unchanged, and so does any sequence of
calls (ticks, edits, `OnDataReceive`) in which every tick finds envelope `ch`
at the end of its cycle: the level is held at its last value, not set to
zero. -/
theorem level_held_at_end_of_cycle (h : Host) (ch : Nat) (hch : ch < 2) (s : State)
    (i : TickInput) (es : List Event) (hi : i.GetEOC ch = true) (hes : allEOC ch es) :
    (Controller h s i).state.levels.get ch = s.levels.get ch
      ∧ (run h (Controller h s i).state es).levels.get ch = s.levels.get ch := by
  have h1 : (Controller h s i).state.levels.get ch = s.levels.get ch :=
    run_holds_level h ch hch [Event.controller i] s ⟨hi, trivial⟩
  exact ⟨h1, by rw [run_holds_level h ch hch es _ hes, h1]⟩

/-- C16 on channel 1: a first tick with both envelopes running caches the level
9216; a tick at end-of-cycle and three further calls hold it. -/
theorem level_held_at_end_of_cycle_witness :
    (1 < 2 ∧ restInput.GetEOC 1 = true
        ∧ allEOC 1 [Event.controller restInput, Event.encoder true 3,
            Event.controller restInput])
      ∧ (Controller sampleHost (Controller sampleHost (Start sampleHost zeroState)
            sampleInput).state restInput).state.levels.get 1 = 9216
      ∧ (run sampleHost
            (Controller sampleHost (Controller sampleHost (Start sampleHost zeroState)
              sampleInput).state restInput).state
            [Event.controller restInput, Event.encoder true 3,
              Event.controller restInput]).levels.get 1 = 9216 :=
  ⟨⟨by decide, rfl, rfl, rfl, trivial⟩,
    level_held_at_end_of_cycle sampleHost 1 (by decide)
      (Controller sampleHost (Start sampleHost zeroState) sampleInput).state restInput
      [Event.controller restInput, Event.encoder true 3, Event.controller restInput]
      rfl ⟨rfl, rfl, trivial⟩⟩

/-- C17: on a regenerating tick with a random draw `r` in `[0, 9216)`, the noise
value, stored in the `uint32_t` member as `(r - 4608) mod 2^32` and read back
as a signed 32-bit integer for `Proportion`, equals `r - 4608`, which lies in
`[-4608, 4608) = [-3K, 3K)` for `K = 12 << 7 = 1536`; it is the carrier of the
snare pre-mix signal of that tick. -/
theorem noise_carrier_signed (h : Host) (s : State) (i : TickInput)
    (hregen : (Controller h s i).random_calls = 1)
    (hr0 : 0 ≤ i.random) (hr1 : i.random < 9216) :
    (Controller h s i).state.noise = wrapUInt32 (i.random - 4608)
      ∧ wrapInt32 (Controller h s i).state.noise = i.random - 4608
      ∧ (-(3 * 1536) ≤ i.random - 4608 ∧ i.random - 4608 < 3 * 1536)
      ∧ ((12 * 2 ^ 7 : Int) = 1536 ∧ (3 * 1536 : Int) = 4608)
      ∧ (PreMix h s i).2.2.1
          = (if i.GetEOC 1 then 0 else
              wrapInt32 (Proportion (i.egNext 1) h.HEMISPHERE_MAX_CV (i.random - 4608))) := by
  obtain ⟨g2, _, g4⟩ := Controller_noise h s i
  have hz : wrapInt32 (s.noise_tone_countdown - 1) = 0 := by
    by_contra hne
    rw [if_neg hne] at g4
    omega
  rw [if_pos hz] at g2
  have hn : (Controller h s i).state.noise = wrapUInt32 (i.random - 4608) := by
    rw [g2]; norm_num
  have hs : wrapInt32 (Controller h s i).state.noise = i.random - 4608 := by
    rw [hn]; unfold wrapInt32 wrapUInt32; omega
  refine ⟨hn, hs, ⟨by omega, by omega⟩, ⟨by norm_num, by norm_num⟩, ?_⟩
  rw [PreMix_sd_signal, hs]

/-- C17 on the first tick after `Start`, with the draw 0: the noise member holds
4294962688 and the snare carrier is -4608. -/
theorem noise_carrier_signed_witness :
    ((Controller sampleHost (Start sampleHost zeroState)
          { sampleInput with random := 0 }).random_calls = 1
        ∧ (0 : Int) ≤ ({ sampleInput with random := 0 } : TickInput).random
        ∧ ({ sampleInput with random := 0 } : TickInput).random < 9216)
      ∧ (Controller sampleHost (Start sampleHost zeroState)
          { sampleInput with random := 0 }).state.noise = 4294962688
      ∧ wrapInt32 (Controller sampleHost (Start sampleHost zeroState)
          { sampleInput with random := 0 }).state.noise = -4608 :=
  ⟨by decide,
    (noise_carrier_signed sampleHost (Start sampleHost zeroState)
      { sampleInput with random := 0 } (by decide) (by decide) (by decide)).1,
    (noise_carrier_signed sampleHost (Start sampleHost zeroState)
      { sampleInput with random := 0 } (by decide) (by decide) (by decide)).2.1⟩

/-- One call keeps the parameters in range and the countdown in `[1, 64]`. -/
theorem step_countdown (h : Host) (s : State) (e : Event) (hs : ParamsInRange s)
    (h1 : 1 ≤ s.noise_tone_countdown) (h64 : s.noise_tone_countdown ≤ 64) :
    1 ≤ (step h s e).noise_tone_countdown ∧ (step h s e).noise_tone_countdown ≤ 64 := by
  cases e with
  | encoder editMode direction =>
    have f := (OnEncoderMove_signal h editMode s direction).2.2
    simp only [step, f]
    exact ⟨h1, h64⟩
  | dataReceive data =>
    have f := (OnDataReceive_signal s data).2.2
    simp only [step, f]
    exact ⟨h1, h64⟩
  | controller i =>
    obtain ⟨_, g3, _⟩ := Controller_noise h s i
    obtain ⟨_, _, ⟨t0, t1⟩, _⟩ := hs
    simp only [step, g3]
    unfold wrapInt32 BNC_MAX_PARAM
    split_ifs <;> omega

/-- Every sequence of calls keeps the countdown in `[1, 64]`. -/
theorem run_countdown (h : Host) (es : List Event) :
    ∀ s : State, ParamsInRange s → 1 ≤ s.noise_tone_countdown →
      s.noise_tone_countdown ≤ 64 →
      1 ≤ (run h s es).noise_tone_countdown ∧ (run h s es).noise_tone_countdown ≤ 64 := by
  induction es with
  | nil => intro s _ h1 h64; exact ⟨h1, h64⟩
  | cons e es ih =>
    intro s hs h1 h64
    obtain ⟨k1, k64⟩ := step_countdown h s e hs h1 h64
    exact ih (step h s e) (step_ParamsInRange h s e hs) k1 k64

/-- The countdown `Start` sets. -/
theorem Start_countdown (h : Host) (s : State) : (Start h s).noise_tone_countdown = 1 := by
  simp [Start, StartChannel, SetEGFreq, SetBDFreq]

/-- C18: in every state reached from `Start` by `Controller` ticks, edits and
`OnDataReceive`, the countdown is in `[1, 64]`, and so it is after one more
`Controller` tick. On that tick the decremented countdown is the countdown
minus one, never below zero; the tick draws a random number and replaces the
noise value exactly when the decremented countdown is zero, and otherwise
leaves the noise value as it was. -/
theorem countdown_in_range (h : Host) (s0 : State) (es : List Event) (i : TickInput) :
    (1 ≤ (run h (Start h s0) es).noise_tone_countdown
        ∧ (run h (Start h s0) es).noise_tone_countdown ≤ 64)
      ∧ (1 ≤ (Controller h (run h (Start h s0) es) i).state.noise_tone_countdown
        ∧ (Controller h (run h (Start h s0) es) i).state.noise_tone_countdown ≤ 64)
      ∧ (wrapInt32 ((run h (Start h s0) es).noise_tone_countdown - 1)
            = (run h (Start h s0) es).noise_tone_countdown - 1
        ∧ 0 ≤ (run h (Start h s0) es).noise_tone_countdown - 1)
      ∧ (Controller h (run h (Start h s0) es) i).state.noise
          = (if (run h (Start h s0) es).noise_tone_countdown - 1 = 0
              then wrapUInt32 (i.random - (12 * 2 ^ 7) * 3)
              else (run h (Start h s0) es).noise)
      ∧ (Controller h (run h (Start h s0) es) i).random_calls
          = (if (run h (Start h s0) es).noise_tone_countdown - 1 = 0 then 1 else 0) := by
  have hp := run_ParamsInRange h es (Start h s0) (Start_ParamsInRange h s0)
  have hc := run_countdown h es (Start h s0) (Start_ParamsInRange h s0)
    (by rw [Start_countdown]) (by rw [Start_countdown]; norm_num)
  have hnext := step_countdown h (run h (Start h s0) es) (Event.controller i) hp hc.1 hc.2
  obtain ⟨g2, _, g4⟩ := Controller_noise h (run h (Start h s0) es) i
  have hw : wrapInt32 ((run h (Start h s0) es).noise_tone_countdown - 1)
      = (run h (Start h s0) es).noise_tone_countdown - 1 := by
    unfold wrapInt32; omega
  rw [hw] at g2 g4
  exact ⟨hc, hnext, ⟨hw, by omega⟩, g2, g4⟩

/-! ## The blend stage never amplifies -/

end BootsNCat

namespace VBias

/-! ## Advancing the bias with the button -/

/-- The method `SetState` stores its argument in `bias_state` and keeps the tick. -/
theorem SetState_members (c : Calibration) (m : VBiasManager) (v : Int) :
    (SetState c m v).bias_state = v
      ∧ (SetState c m v).last_advance_tick = m.last_advance_tick := by
  simp [SetState]

/-- The members after `AdvanceBias`, for any `bias_state` not above 2: within the
timeout the state is incremented and wraps from 2 to 0, otherwise it is kept;
the tick is recorded either way. -/
theorem AdvanceBias_members (c : Calibration) (ticks : Int) (m : VBiasManager)
    (h0 : 0 ≤ m.bias_state) (h2 : m.bias_state ≤ 2) :
    (AdvanceBias c ticks m).bias_state
        = (if withinTimeout ticks m then (m.bias_state + 1) % 3 else m.bias_state)
      ∧ (AdvanceBias c ticks m).last_advance_tick = BootsNCat.wrapUInt32 ticks := by
  unfold AdvanceBias
  by_cases hw : withinTimeout ticks m
  · have e : BootsNCat.wrapInt32 (m.bias_state + 1) = m.bias_state + 1 := by
      unfold BootsNCat.wrapInt32; omega
    simp only [hw, if_true, e]
    by_cases h3 : m.bias_state + 1 > 2
    · simp only [h3, if_true, (SetState_members c _ _).1]
      exact ⟨by omega, trivial⟩
    · simp only [h3, if_false, (SetState_members c _ _).1]
      exact ⟨by omega, trivial⟩
  · simp [hw]

/-- The first `AdvanceBias` on a newly constructed manager changes `bias_state`
exactly when the tick counter is below the timeout. -/
theorem first_AdvanceBias (c : Calibration) (g : VBiasManager) (ticks : Int) :
    (AdvanceBias c ticks (new g)).bias_state
      = (if BootsNCat.wrapUInt32 ticks < 20000 then 1 else 0) := by
  have h := (AdvanceBias_members c ticks (new g) (by simp [new]) (by simp [new])).1
  rw [h]
  simp [withinTimeout, new, BIAS_EDITOR_TIMEOUT]

/-- C14 fails on the code: on a newly constructed manager (`bias_state = 0`,
`last_advance_tick = 0`) the first `AdvanceBias` at tick 10000 finds
`10000 - 0 < 20000` and advances `bias_state` from 0 (BI) to 1 (ASYM); at tick
20000 or later it leaves `bias_state` at 0. -/
theorem first_AdvanceBias_early_advances :
    (new powerOn).bias_state = 0 ∧ (new powerOn).last_advance_tick = 0
      ∧ (AdvanceBias sampleCalibration 10000 (new powerOn)).bias_state = 1
      ∧ (AdvanceBias sampleCalibration 0 (new powerOn)).bias_state = 1
      ∧ (AdvanceBias sampleCalibration 20000 (new powerOn)).bias_state = 0 := by
  decide

/-- Every sequence of calls keeps `bias_state` in `{0, 1, 2}`. -/
theorem calls_bias_state (c : Calibration) (cs : List Call) :
    ∀ m : VBiasManager, 0 ≤ m.bias_state → m.bias_state ≤ 2 →
      0 ≤ (calls c m cs).bias_state ∧ (calls c m cs).bias_state ≤ 2 := by
  induction cs with
  | nil => intro m h0 h2; exact ⟨h0, h2⟩
  | cons x cs ih =>
    intro m h0 h2
    have hx : 0 ≤ (call c m x).bias_state ∧ (call c m x).bias_state ≤ 2 := by
      cases x with
      | advance ticks =>
        have h := (AdvanceBias_members c ticks m h0 h2).1
        simp only [call, h]
        split_ifs <;> omega
      | setBI =>
        have h := (SetState_members c m BI).1
        simp only [call]; rw [h]; unfold BI; omega
      | setASYM =>
        have h := (SetState_members c m ASYM).1
        simp only [call]; rw [h]; unfold ASYM; omega
      | setUNI =>
        have h := (SetState_members c m UNI).1
        simp only [call]; rw [h]; unfold UNI; omega
    exact ih (call c m x) hx.1 hx.2

/-- C15: for a manager with `bias_state` in `{0, 1, 2}` (every manager reached from
the constructor by button presses and `SetState` calls), `AdvanceBias` within
the timeout sets `bias_state` to `(bias_state + 1) mod 3` (BI, ASYM, UNI, BI)
and otherwise leaves it unchanged; the result is in `{0, 1, 2}`; and three
calls in a row, each within the timeout, restore the starting state. -/
theorem AdvanceBias_cycles (c : Calibration) (m : VBiasManager) (t1 t2 t3 : Int)
    (h0 : 0 ≤ m.bias_state) (h2 : m.bias_state ≤ 2) :
    ((AdvanceBias c t1 m).bias_state
        = (if withinTimeout t1 m then (m.bias_state + 1) % 3 else m.bias_state))
      ∧ (0 ≤ (AdvanceBias c t1 m).bias_state ∧ (AdvanceBias c t1 m).bias_state ≤ 2)
      ∧ (withinTimeout t1 m → withinTimeout t2 (AdvanceBias c t1 m) →
          withinTimeout t3 (AdvanceBias c t2 (AdvanceBias c t1 m)) →
          (AdvanceBias c t3 (AdvanceBias c t2 (AdvanceBias c t1 m))).bias_state
            = m.bias_state)
      ∧ (∀ (g : VBiasManager) (cs : List Call),
          0 ≤ (calls c (new g) cs).bias_state ∧ (calls c (new g) cs).bias_state ≤ 2) := by
  have a1 := (AdvanceBias_members c t1 m h0 h2).1
  have r1 : 0 ≤ (AdvanceBias c t1 m).bias_state ∧ (AdvanceBias c t1 m).bias_state ≤ 2 := by
    rw [a1]; split_ifs <;> omega
  have a2 := (AdvanceBias_members c t2 (AdvanceBias c t1 m) r1.1 r1.2).1
  have r2 : 0 ≤ (AdvanceBias c t2 (AdvanceBias c t1 m)).bias_state
      ∧ (AdvanceBias c t2 (AdvanceBias c t1 m)).bias_state ≤ 2 := by
    rw [a2]; split_ifs <;> omega
  have a3 := (AdvanceBias_members c t3 (AdvanceBias c t2 (AdvanceBias c t1 m)) r2.1 r2.2).1
  refine ⟨a1, r1, ?_, ?_⟩
  · intro w1 w2 w3
    rw [if_pos w1] at a1
    rw [if_pos w2, a1] at a2
    rw [if_pos w3, a2] at a3
    rw [a3]
    omega
  · intro g cs
    exact calls_bias_state c cs (new g) (by simp [new]) (by simp [new])

/-- C15 from the state UNI: three presses at ticks 100000, 110000 and 120000, each
within 20000 ticks of the one before, pass through BI and ASYM back to UNI. -/
theorem AdvanceBias_cycles_witness :
    ((0 : Int) ≤ ({ powerOn with bias_state := 2, last_advance_tick := 90000 }
          : VBiasManager).bias_state
        ∧ ({ powerOn with bias_state := 2, last_advance_tick := 90000 }
          : VBiasManager).bias_state ≤ 2)
      ∧ (AdvanceBias sampleCalibration 100000
          { powerOn with bias_state := 2, last_advance_tick := 90000 }).bias_state = 0
      ∧ (AdvanceBias sampleCalibration 120000 (AdvanceBias sampleCalibration 110000
          (AdvanceBias sampleCalibration 100000
            { powerOn with bias_state := 2, last_advance_tick := 90000 }))).bias_state = 2 :=
  ⟨by decide,
    (AdvanceBias_cycles sampleCalibration
      { powerOn with bias_state := 2, last_advance_tick := 90000 } 100000 110000 120000
      (by decide) (by decide)).1,
    (AdvanceBias_cycles sampleCalibration
      { powerOn with bias_state := 2, last_advance_tick := 90000 } 100000 110000 120000
      (by decide) (by decide)).2.2.1 (by decide) (by decide) (by decide)⟩

end VBias

namespace ArpChords

/-- C20: the table `Arp_Chords` has `Nr_of_arp_chords + 1 = 56` entries, and every
entry has `1 ≤ nr_notes ≤ 12` with `nr_notes` the number of tones its
initialiser lists, so the indices `0 .. nr_notes - 1` stay inside the
12-element array. -/
theorem Arp_Chords_well_formed :
    (Arp_Chords.length : Int) = Nr_of_arp_chords + 1
      ∧ Arp_Chords.length = 56
      ∧ (∀ c ∈ Arp_Chords, 1 ≤ c.nr_notes ∧ c.nr_notes ≤ 12
          ∧ c.nr_notes = c.chord_tones.length
          ∧ (chord_tones_array c).length = 12
          ∧ (chord_tones_array c).take c.nr_notes = c.chord_tones) := by
  decide

end ArpChords
